import Mathlib

/-!
Shallow embedding of the portfolio-app server functions, SQL schema and
row-level-security (RLS) policies, together with proofs of the stated
properties of the system.

Source layout covered here:
- the server-function module bundled in vite.config.ts (getInvestments,
  createDistribution, deletePortfolio, getPortfolioSnapshots,
  updateUserStockPrices, initializeSchema with process-local flag, ...);
- src/lib/auth.ts (getCurrentUserId);
- src/data/investments.ts (the legacy initializeSchema with
  performPortfolioMigration and createFreshSchema);
- db/security-and-snapshots.sql (check constraints, RLS policies,
  junction-table triggers, snapshot upsert functions).

Monetary DECIMAL(12,2) values are modelled as integers (cents); DATE and
TIMESTAMP values as natural numbers (days / seconds).  SQL NULL is Option.
-/

namespace PortfolioApp

/-- A row of the portfolios table: id, user_id, name, description. -/
structure Portfolio where
  id : Nat
  user_id : Nat
  name : String
  description : Option String
deriving DecidableEq, Repr

/-- A row of the investments table (current schema, vite.config.ts
createFreshSchema): portfolio_id is the owning chain, amount the principal,
stock columns optional. -/
structure Investment where
  id : Nat
  portfolio_id : Nat
  name : String
  description : Option String
  date_started : Option Nat
  amount : Int
  investment_type : String
  has_distributions : Bool
  stock_symbol : Option String
  stock_quantity : Option Int
  current_stock_price : Option Int
  stock_price_updated_at : Option Nat
deriving DecidableEq, Repr

/-- A row of the distributions table. -/
structure Distribution where
  id : Nat
  investment_id : Nat
  date : Nat
  amount : Int
  description : Option String
deriving DecidableEq, Repr

/-- A row of the categories table. -/
structure Category where
  id : Nat
  user_id : Nat
  name : String
deriving DecidableEq, Repr

/-- A row of the tags table. -/
structure Tag where
  id : Nat
  user_id : Nat
  name : String
deriving DecidableEq, Repr

/-- A row of the investment_categories junction table. -/
structure InvestmentCategoryRow where
  investment_id : Nat
  category_id : Nat
deriving DecidableEq, Repr

/-- A row of the investment_tags junction table. -/
structure InvestmentTagRow where
  investment_id : Nat
  tag_id : Nat
deriving DecidableEq, Repr

/-- A row of portfolio_daily_snapshots (primary key (portfolio_id,
snapshot_date)). -/
structure PortfolioSnapshotRow where
  portfolio_id : Nat
  snapshot_date : Nat
  total_value : Int
  total_invested : Int
  total_distributions : Int
  investment_count : Nat
deriving DecidableEq, Repr

/-- A row of user_daily_snapshots (primary key (user_id, snapshot_date)). -/
structure UserSnapshotRow where
  user_id : Nat
  snapshot_date : Nat
  total_value : Int
  total_invested : Int
  total_distributions : Int
  portfolio_count : Nat
  investment_count : Nat
deriving DecidableEq, Repr

/-- Whether an Except result is a success (a query that did not raise). -/
def exceptOk {ε α : Type} : Except ε α → Bool
  | .ok _ => true
  | .error _ => false

/-- The relational state the tenant-scoped operations act on. -/
structure DB where
  portfolios : List Portfolio
  investments : List Investment
  distributions : List Distribution
  categories : List Category
  tags : List Tag
  investment_categories : List InvestmentCategoryRow
  investment_tags : List InvestmentTagRow
  portfolio_daily_snapshots : List PortfolioSnapshotRow
  user_daily_snapshots : List UserSnapshotRow
deriving DecidableEq, Repr

/-- EXISTS (SELECT 1 FROM portfolios p WHERE p.id = pid AND p.user_id = u):
the owning-chain test used both by the RLS policies and by the
application-level ownership joins. -/
def portfolioOwnedBy (db : DB) (pid u : Nat) : Bool :=
  db.portfolios.any (fun p => p.id == pid && p.user_id == u)

/-- EXISTS (SELECT 1 FROM investments i JOIN portfolios p ON p.id =
i.portfolio_id WHERE i.id = iid AND p.user_id = u): the owning chain of a
distribution / junction row, as in the distributions_rw policy. -/
def investmentOwnedBy (db : DB) (iid u : Nat) : Bool :=
  db.investments.any (fun i => i.id == iid && portfolioOwnedBy db i.portfolio_id u)

end PortfolioApp

namespace PortfolioApp.Auth

/-- JS parseInt(s, 10) restricted to the leading-digits case; none models
NaN. -/
def jsParseInt10 (s : String) : Option Nat :=
  let ds := s.toList.takeWhile Char.isDigit
  if ds.isEmpty then none
  else some (ds.foldl (fun n c => n * 10 + (c.toNat - 48)) 0)

/-- getCurrentUserId from src/lib/auth.ts.  In development it reads the
VITE_DEV_USER_ID override (some s, with the JS falsy empty string treated
as absent) and falls back to user 1; in any other NODE_ENV it throws the
not-implemented configuration error.  The inner Option is the JS number
result (none = NaN). -/
def getCurrentUserId (nodeEnv : String) (viteDevUserId : Option String) :
    Except String (Option Nat) :=
  if nodeEnv == "development" then
    match viteDevUserId with
    | some s => if s == "" then .ok (some 1) else .ok (jsParseInt10 s)
    | none => .ok (some 1)
  else
    .error "Clerk authentication not yet implemented"

end PortfolioApp.Auth

namespace PortfolioApp.ServerFns

/-- initializeSchema from the server-function module in vite.config.ts,
as a transition on the process-local schemaInitialized flag.  Inputs: the
NODE_ENV string, the current flag, whether getClient returns a client, and
the outcome of createFreshSchema (the DDL).  Output: the handler result
(ok true models the returned success record, error a thrown exception),
the new flag, and whether any schema DDL was issued on this call. -/
def initializeSchema (nodeEnv : String) (flag : Bool) (clientOk : Bool)
    (ddl : Except String Unit) : Except String Bool × Bool × Bool :=
  if nodeEnv == "production" then
    (.ok true, flag, false)
  else if flag then
    (.ok true, flag, false)
  else if !clientOk then
    (.error "Database connection failed", flag, false)
  else
    match ddl with
    | .ok _ => (.ok true, true, true)
    | .error e => (.error e, flag, true)

end PortfolioApp.ServerFns

namespace PortfolioApp.Sql

/-- SELECT p.user_id FROM investments i JOIN portfolios p ON p.id =
i.portfolio_id WHERE i.id = iid, as in the trigger functions of
db/security-and-snapshots.sql; none models the SQL NULL left by SELECT
INTO when no row matches. -/
def investmentUser (db : DB) (iid : Nat) : Option Nat :=
  match db.investments.find? (fun i => i.id == iid) with
  | none => none
  | some i =>
    match db.portfolios.find? (fun p => p.id == i.portfolio_id) with
    | none => none
    | some p => some p.user_id

/-- SELECT user_id FROM categories WHERE id = cid. -/
def categoryUser (db : DB) (cid : Nat) : Option Nat :=
  (db.categories.find? (fun c => c.id == cid)).map (fun c => c.user_id)

/-- SELECT user_id FROM tags WHERE id = tid. -/
def tagUser (db : DB) (tid : Nat) : Option Nat :=
  (db.tags.find? (fun t => t.id == tid)).map (fun t => t.user_id)

/-- The trigger function enforce_same_user_inv_cat: raises unless the
investment owner (via its portfolio) and the category owner both exist and
are equal; otherwise the NEW row passes through. -/
def enforce_same_user_inv_cat (db : DB) (row : InvestmentCategoryRow) :
    Except String InvestmentCategoryRow :=
  match investmentUser db row.investment_id, categoryUser db row.category_id with
  | some iu, some cu =>
    if iu ≠ cu then
      .error "Cross-tenant association not allowed: investment and category must belong to the same user"
    else .ok row
  | _, _ =>
    .error "Cross-tenant association not allowed: investment and category must belong to the same user"

/-- The trigger function enforce_same_user_inv_tag. -/
def enforce_same_user_inv_tag (db : DB) (row : InvestmentTagRow) :
    Except String InvestmentTagRow :=
  match investmentUser db row.investment_id, tagUser db row.tag_id with
  | some iu, some tu =>
    if iu ≠ tu then
      .error "Cross-tenant association not allowed: investment and tag must belong to the same user"
    else .ok row
  | _, _ =>
    .error "Cross-tenant association not allowed: investment and tag must belong to the same user"

/-- INSERT INTO investment_categories, with the BEFORE INSERT trigger
trg_inv_cat_user applied to the NEW row. -/
def insertInvestmentCategory (db : DB) (row : InvestmentCategoryRow) :
    Except String DB :=
  match enforce_same_user_inv_cat db row with
  | .error e => .error e
  | .ok r => .ok { db with investment_categories := db.investment_categories ++ [r] }

/-- UPDATE of an investment_categories row to new key values, with the
BEFORE UPDATE trigger applied to the NEW row. -/
def updateInvestmentCategory (db : DB) (oldRow newRow : InvestmentCategoryRow) :
    Except String DB :=
  match enforce_same_user_inv_cat db newRow with
  | .error e => .error e
  | .ok r =>
    .ok { db with investment_categories :=
      db.investment_categories.map (fun x => if x == oldRow then r else x) }

/-- INSERT INTO investment_tags, with the BEFORE INSERT trigger
trg_inv_tag_user applied to the NEW row. -/
def insertInvestmentTag (db : DB) (row : InvestmentTagRow) :
    Except String DB :=
  match enforce_same_user_inv_tag db row with
  | .error e => .error e
  | .ok r => .ok { db with investment_tags := db.investment_tags ++ [r] }

/-- UPDATE of an investment_tags row, with the BEFORE UPDATE trigger
applied to the NEW row. -/
def updateInvestmentTag (db : DB) (oldRow newRow : InvestmentTagRow) :
    Except String DB :=
  match enforce_same_user_inv_tag db newRow with
  | .error e => .error e
  | .ok r =>
    .ok { db with investment_tags :=
      db.investment_tags.map (fun x => if x == oldRow then r else x) }

/-- The record returned by compute_portfolio_snapshot. -/
structure PortfolioComputation where
  total_value : Int
  total_invested : Int
  total_distributions : Int
  investment_count : Nat
deriving DecidableEq, Repr

/-- The record returned by compute_user_snapshot. -/
structure UserComputation where
  total_value : Int
  total_invested : Int
  total_distributions : Int
  portfolio_count : Nat
  investment_count : Nat
deriving DecidableEq, Repr

/-- SUM(amount) over distributions of one investment (the grouped
subquery of the snapshot functions). -/
def sumDistributionsFor (db : DB) (iid : Nat) : Int :=
  ((db.distributions.filter (fun d => d.investment_id == iid)).map
    (fun d => d.amount)).sum

/-- The CASE expression of the snapshot functions: a priced stocks-type
investment is valued at quantity times price, anything else at its
principal amount.  Note the SQL functions test the type string stocks. -/
def snapshotValue (i : Investment) : Int :=
  match i.current_stock_price, i.stock_quantity with
  | some price, some qty =>
    if i.investment_type == "stocks" then qty * price else i.amount
  | _, _ => i.amount

/-- compute_portfolio_snapshot(p_portfolio_id): aggregates over the
investments of one portfolio. -/
def compute_portfolio_snapshot (db : DB) (pid : Nat) : PortfolioComputation :=
  let invs := db.investments.filter (fun i => i.portfolio_id == pid)
  { total_value := (invs.map snapshotValue).sum
    total_invested := (invs.map (fun i => i.amount)).sum
    total_distributions := (invs.map (fun i => sumDistributionsFor db i.id)).sum
    investment_count := invs.length }

/-- compute_user_snapshot(p_user_id): aggregates over all portfolios of
one user and their investments. -/
def compute_user_snapshot (db : DB) (u : Nat) : UserComputation :=
  let ps := db.portfolios.filter (fun p => p.user_id == u)
  let invs := db.investments.filter (fun i =>
    ps.any (fun p => p.id == i.portfolio_id))
  { total_value := (invs.map snapshotValue).sum
    total_invested := (invs.map (fun i => i.amount)).sum
    total_distributions := (invs.map (fun i => sumDistributionsFor db i.id)).sum
    portfolio_count := ps.length
    investment_count := invs.length }

/-- The row save_portfolio_snapshot computes for one portfolio and day. -/
def portfolioSnapshotRowOf (db : DB) (pid date : Nat) : PortfolioSnapshotRow :=
  { portfolio_id := pid, snapshot_date := date
    total_value := (compute_portfolio_snapshot db pid).total_value
    total_invested := (compute_portfolio_snapshot db pid).total_invested
    total_distributions := (compute_portfolio_snapshot db pid).total_distributions
    investment_count := (compute_portfolio_snapshot db pid).investment_count }

/-- save_portfolio_snapshot(p_portfolio_id, p_snapshot_date): computes the
aggregate and INSERTs it, ON CONFLICT (portfolio_id, snapshot_date) DO
UPDATE overwriting the computed fields. -/
def save_portfolio_snapshot (db : DB) (pid date : Nat) : DB :=
  { db with portfolio_daily_snapshots :=
      if db.portfolio_daily_snapshots.any (fun s =>
          s.portfolio_id == pid && s.snapshot_date == date) then
        db.portfolio_daily_snapshots.map (fun s =>
          if s.portfolio_id == pid && s.snapshot_date == date then
            portfolioSnapshotRowOf db pid date
          else s)
      else
        db.portfolio_daily_snapshots ++ [portfolioSnapshotRowOf db pid date] }

/-- The row save_user_snapshot computes for one user and day. -/
def userSnapshotRowOf (db : DB) (u date : Nat) : UserSnapshotRow :=
  { user_id := u, snapshot_date := date
    total_value := (compute_user_snapshot db u).total_value
    total_invested := (compute_user_snapshot db u).total_invested
    total_distributions := (compute_user_snapshot db u).total_distributions
    portfolio_count := (compute_user_snapshot db u).portfolio_count
    investment_count := (compute_user_snapshot db u).investment_count }

/-- save_user_snapshot(p_user_id, p_snapshot_date): computes the aggregate
and INSERTs it, ON CONFLICT (user_id, snapshot_date) DO UPDATE overwriting
the computed fields. -/
def save_user_snapshot (db : DB) (u date : Nat) : DB :=
  { db with user_daily_snapshots :=
      if db.user_daily_snapshots.any (fun s =>
          s.user_id == u && s.snapshot_date == date) then
        db.user_daily_snapshots.map (fun s =>
          if s.user_id == u && s.snapshot_date == date then
            userSnapshotRowOf db u date
          else s)
      else
        db.user_daily_snapshots ++ [userSnapshotRowOf db u date] }

end PortfolioApp.Sql

namespace PortfolioApp.ServerFns

/-- Payload of createDistribution. -/
structure CreateDistributionData where
  investment_id : Nat
  date : Nat
  amount : Int
  description : Option String
deriving DecidableEq, Repr

/-- The tuple of the VALUES clause of createDistribution. -/
def newDistributionRow (newId : Nat) (data : CreateDistributionData) : Distribution :=
  { id := newId, investment_id := data.investment_id, date := data.date
    amount := data.amount, description := data.description }

/-- The single statement issued by the createDistribution handler in
vite.config.ts: INSERT INTO distributions (investment_id, date, amount,
description) VALUES ... RETURNING *.  The statement itself carries no
identity filter; the rls parameter states whether the distributions_rw
WITH CHECK policy of db/security-and-snapshots.sql is enforced on the
session (sessionUser is the identity bound by setSessionUser). -/
def createDistribution (rls : Bool) (db : DB) (sessionUser newId : Nat)
    (data : CreateDistributionData) : Except String (DB × Distribution) :=
  if rls && !(investmentOwnedBy db data.investment_id sessionUser) then
    .error "new row violates row-level security policy for table distributions"
  else if data.amount < 0 then
    .error "new row for relation distributions violates check constraint chk_distributions_amount_nonneg"
  else if !(db.investments.any (fun i => i.id == data.investment_id)) then
    .error "insert or update on table distributions violates foreign key constraint"
  else
    .ok ({ db with distributions := db.distributions ++ [newDistributionRow newId data] },
      newDistributionRow newId data)

/-- Payload of createInvestment. -/
structure CreateInvestmentData where
  portfolio_id : Nat
  name : String
  description : Option String
  date_started : Option Nat
  amount : Int
  investment_type : String
  has_distributions : Bool
  stock_symbol : Option String
  stock_quantity : Option Int
  current_stock_price : Option Int
deriving DecidableEq, Repr

/-- The INSERT INTO investments statement of the createInvestment handler
(vite.config.ts); stock_price_updated_at is set to now exactly when a
current_stock_price was supplied.  The category/tag association loop that
follows in the handler is independent of the inserted amounts and is
modelled separately by the junction-table operations.  The rls parameter
states whether the investments_rw WITH CHECK policy is enforced.
newInvestmentRow is the tuple of the VALUES clause. -/
def newInvestmentRow (newId now : Nat) (d : CreateInvestmentData) : Investment :=
  { id := newId, portfolio_id := d.portfolio_id, name := d.name
    description := d.description, date_started := d.date_started
    amount := d.amount, investment_type := d.investment_type
    has_distributions := d.has_distributions, stock_symbol := d.stock_symbol
    stock_quantity := d.stock_quantity, current_stock_price := d.current_stock_price
    stock_price_updated_at := if d.current_stock_price.isSome then some now else none }

def createInvestment (rls : Bool) (db : DB) (sessionUser newId now : Nat)
    (d : CreateInvestmentData) : Except String (DB × Investment) :=
  if rls && !(portfolioOwnedBy db d.portfolio_id sessionUser) then
    .error "new row violates row-level security policy for table investments"
  else if d.amount < 0 then
    .error "new row for relation investments violates check constraint"
  else if !(db.portfolios.any (fun p => p.id == d.portfolio_id)) then
    .error "insert or update on table investments violates foreign key constraint"
  else
    .ok ({ db with investments := db.investments ++ [newInvestmentRow newId now d] },
      newInvestmentRow newId now d)

/-- Payload of updateInvestment (the legacy by-user handler).  An outer
none means the field was undefined and its SET clause omitted; amount,
investment_type and has_distributions are always pushed. -/
structure UpdateInvestmentData where
  name : Option String
  description : Option (Option String)
  date_started : Option (Option Nat)
  stock_symbol : Option (Option String)
  stock_quantity : Option (Option Int)
  amount : Int
  investment_type : String
  has_distributions : Bool
  portfolio_id : Option Nat
deriving DecidableEq, Repr

/-- The SET clauses of updateInvestment applied to one matched row. -/
def applyInvestmentUpdate (d : UpdateInvestmentData) (i : Investment) : Investment :=
  { i with
    name := d.name.getD i.name
    description := d.description.getD i.description
    date_started := d.date_started.getD i.date_started
    stock_symbol := d.stock_symbol.getD i.stock_symbol
    stock_quantity := d.stock_quantity.getD i.stock_quantity
    amount := d.amount
    investment_type := d.investment_type
    has_distributions := d.has_distributions
    portfolio_id := d.portfolio_id.getD i.portfolio_id }

/-- The UPDATE statement of the updateInvestment handler (vite.config.ts):
UPDATE investments i SET ... FROM portfolios p WHERE i.id = iid AND
i.portfolio_id = p.id AND p.user_id = sessionUser RETURNING i.*; an empty
result raises the not-found error, and the investments amount check
constraint rejects a negative updated amount.  The junction-row rewrite
that follows in the handler does not touch the investments table. -/
def updateInvestment (db : DB) (sessionUser iid : Nat) (d : UpdateInvestmentData) :
    Except String (DB × Investment) :=
  match db.investments.find?
      (fun i => i.id == iid && portfolioOwnedBy db i.portfolio_id sessionUser) with
  | none => .error "Investment not found or you do not have permission to update it"
  | some i =>
    if (applyInvestmentUpdate d i).amount < 0 then
      .error "new row for relation investments violates check constraint"
    else
      .ok ({ db with investments := db.investments.map (fun j =>
          if j.id == iid && portfolioOwnedBy db j.portfolio_id sessionUser
          then applyInvestmentUpdate d j else j) },
        applyInvestmentUpdate d i)

/-- The investments rows a session can see: all of them with the policies
off, only those passing the investments_rw USING clause with them on. -/
def visibleInvestmentRows (rls : Bool) (db : DB) (sessionUser : Nat) :
    List Investment :=
  if rls then db.investments.filter (fun i => portfolioOwnedBy db i.portfolio_id sessionUser)
  else db.investments

/-- deletePortfolio (vite.config.ts): first SELECT COUNT(asterisk) FROM
investments WHERE portfolio_id = pid (no identity filter of its own, so
under RLS it counts only rows visible through investments_rw); a positive
count raises the domain error; then DELETE FROM portfolios WHERE id = pid
AND user_id = sessionUser, raising not-found when nothing was deleted.
The rls parameter states whether the row-visibility policies are enforced
(the DELETE filters by user_id itself either way). -/
def deletePortfolio (rls : Bool) (db : DB) (sessionUser pid : Nat) :
    Except String DB :=
  if 0 < ((visibleInvestmentRows rls db sessionUser).filter
      (fun i => i.portfolio_id == pid)).length then
    .error "Cannot delete portfolio with existing investments"
  else if (db.portfolios.filter (fun p => p.id == pid && p.user_id == sessionUser)).isEmpty then
    .error "Portfolio not found"
  else
    .ok { db with portfolios :=
      db.portfolios.filter (fun p => !(p.id == pid && p.user_id == sessionUser)) }

/-- getPortfolioWithInvestments (vite.config.ts): SELECT * FROM portfolios
WHERE user_id = sessionUser AND id = pid, raising not-found on an empty
result, then the investments of that portfolio. -/
def getPortfolioWithInvestments (db : DB) (sessionUser pid : Nat) :
    Except String (Portfolio × List Investment) :=
  match db.portfolios.filter (fun p => p.user_id == sessionUser && p.id == pid) with
  | [] => .error "Portfolio not found"
  | p :: _ => .ok (p, db.investments.filter (fun i => i.portfolio_id == pid))

/-- ORDER BY snapshot_date DESC: insertion step. -/
def insertByDateDesc (s : PortfolioSnapshotRow) :
    List PortfolioSnapshotRow → List PortfolioSnapshotRow
  | [] => [s]
  | t :: ts =>
    if s.snapshot_date ≤ t.snapshot_date then t :: insertByDateDesc s ts
    else s :: t :: ts

/-- ORDER BY snapshot_date DESC over a snapshot list. -/
def sortByDateDesc : List PortfolioSnapshotRow → List PortfolioSnapshotRow
  | [] => []
  | s :: ss => insertByDateDesc s (sortByDateDesc ss)

/-- getPortfolioSnapshots (vite.config.ts): SELECT * FROM
portfolio_daily_snapshots WHERE portfolio_id = pid ORDER BY snapshot_date
DESC LIMIT days.  The query carries no identity filter of its own; the rls
parameter states whether the portfolio_snapshots_rw USING policy is
enforced on the session. -/
def getPortfolioSnapshots (rls : Bool) (db : DB) (sessionUser pid days : Nat) :
    List PortfolioSnapshotRow :=
  let rows :=
    if rls then
      db.portfolio_daily_snapshots.filter (fun s => portfolioOwnedBy db s.portfolio_id sessionUser)
    else db.portfolio_daily_snapshots
  (sortByDateDesc (rows.filter (fun s => s.portfolio_id == pid))).take days

/-- The rate-limit detection of updateUserStockPrices: the caught message
contains API, rate limit, or Note (String.includes in the source). -/
def isApiLimitMessage (msg : String) : Bool :=
  ((msg.splitOn "API").length > 1) ||
  ((msg.splitOn "rate limit").length > 1) ||
  ((msg.splitOn "Note").length > 1)

/-- The WHERE clause of the stale-stock SELECT in updateUserStockPrices:
the investment sits in a portfolio of the bound user, has type stock, a
non-null stock_symbol, and a price timestamp that is NULL or older than 24
hours (timestamps in seconds, so the interval is 86400). -/
def isStaleStock (db : DB) (sessionUser now : Nat) (i : Investment) : Bool :=
  portfolioOwnedBy db i.portfolio_id sessionUser &&
  i.investment_type == "stock" &&
  i.stock_symbol.isSome &&
  (match i.stock_price_updated_at with
   | none => true
   | some t => decide (t + 86400 < now))

/-- The stale-stock SELECT of updateUserStockPrices. -/
def staleStockInvestments (db : DB) (sessionUser now : Nat) : List Investment :=
  db.investments.filter (isStaleStock db sessionUser now)

/-- The error string pushed for one failed symbol. -/
def formatQuoteError (sym msg : String) : String :=
  "Failed to update " ++ sym ++ ": " ++ msg

/-- UPDATE investments SET current_stock_price = price,
stock_price_updated_at = NOW() WHERE id = iid. -/
def setStockPrice (db : DB) (iid : Nat) (price : Int) (now : Nat) : DB :=
  { db with investments := db.investments.map (fun j =>
      if j.id == iid then
        { j with current_stock_price := some price, stock_price_updated_at := some now }
      else j) }

/-- The per-investment loop of updateUserStockPrices.  quote is the
external getStockQuote call (error = thrown lookup failure).  Components
of the result: updated count, errors list, the symbols for which an
external request was issued, and the database after the row updates.  A
failure is appended to errors and the loop continues, except that a
rate-limit message breaks out of the loop. -/
def priceLoop (quote : String → Except String Int) (now : Nat) :
    List Investment → DB → Nat → List String → List String →
    Nat × List String × List String × DB
  | [], db, updated, errors, calls => (updated, errors, calls, db)
  | i :: rest, db, updated, errors, calls =>
    match quote (i.stock_symbol.getD "") with
    | .ok price =>
      priceLoop quote now rest (setStockPrice db i.id price now)
        (updated + 1) errors (calls ++ [i.stock_symbol.getD ""])
    | .error msg =>
      if isApiLimitMessage msg then
        (updated, errors ++ [formatQuoteError (i.stock_symbol.getD "") msg],
          calls ++ [i.stock_symbol.getD ""], db)
      else
        priceLoop quote now rest db updated
          (errors ++ [formatQuoteError (i.stock_symbol.getD "") msg])
          (calls ++ [i.stock_symbol.getD ""])

/-- The record returned by updateUserStockPrices. -/
structure StockUpdateResult where
  updated : Nat
  errors : List String
deriving DecidableEq, Repr

/-- updateUserStockPrices (vite.config.ts).  selectFailure models an
unexpected error thrown before or by the stale-stock SELECT, which the
top-level catch converts into a degraded result instead of re-throwing.
The function returns the result record, the symbols for which external
quote requests were issued, and the final database. -/
def updateUserStockPrices (quote : String → Except String Int) (db : DB)
    (sessionUser now : Nat) (selectFailure : Option String) :
    StockUpdateResult × List String × DB :=
  match selectFailure with
  | some msg => ({ updated := 0, errors := [msg] }, [], db)
  | none =>
    let stale := staleStockInvestments db sessionUser now
    if stale.length == 0 then ({ updated := 0, errors := [] }, [], db)
    else
      let r := priceLoop quote now stale db 0 [] []
      ({ updated := r.1, errors := r.2.1 }, r.2.2.1, r.2.2.2)

/-- The prefix of the stale list the loop actually processes: everything
up to and including the first investment whose quote fails with a
rate-limit message. -/
def processedUntilLimit (quote : String → Except String Int) :
    List Investment → List Investment
  | [] => []
  | i :: rest =>
    match quote (i.stock_symbol.getD "") with
    | .ok _ => i :: processedUntilLimit quote rest
    | .error msg =>
      if isApiLimitMessage msg then [i]
      else i :: processedUntilLimit quote rest

/-- The error entries produced by a processed prefix. -/
def quoteErrorsOf (quote : String → Except String Int) (l : List Investment) :
    List String :=
  l.filterMap (fun i =>
    match quote (i.stock_symbol.getD "") with
    | .ok _ => none
    | .error msg => some (formatQuoteError (i.stock_symbol.getD "") msg))

/-- The successful updates in a processed prefix. -/
def quoteOkCount (quote : String → Except String Int) (l : List Investment) : Nat :=
  (l.filter (fun i => exceptOk (quote (i.stock_symbol.getD "")))).length

end PortfolioApp.ServerFns

namespace PortfolioApp.DataInvestments

/-- An investments row as the legacy module src/data/investments.ts sees
it: the old flat ownership column user_id (nullable after migration) and
the grouping column portfolio_id (absent or nullable). -/
structure MigInvestment where
  id : Nat
  user_id : Option Nat
  portfolio_id : Option Nat
deriving DecidableEq, Repr

/-- A users row as used by createMockData. -/
structure MockUser where
  id : Nat
  name : String
  email : String
deriving DecidableEq, Repr

/-- The catalog-plus-data state initializeSchema of
src/data/investments.ts inspects and transforms: which tables exist
(information_schema.tables), the rows of the tables the migration touches,
and the column facts about investments that the migration queries
(information_schema.columns) or alters. -/
structure SchemaState where
  tables : List String
  usersRows : List MockUser
  portfoliosRows : List Portfolio
  investmentsRows : List MigInvestment
  invHasPortfolioIdCol : Bool
  invHasUserIdCol : Bool
  invUserIdNotNull : Bool
deriving DecidableEq, Repr

/-- The tables createFreshSchema creates. -/
def allTableNames : List String :=
  ["users", "portfolios", "categories", "tags", "investment_types",
   "investments", "distributions", "investment_categories", "investment_tags"]

/-- CREATE TABLE IF NOT EXISTS at the catalog level. -/
def addTableIfAbsent (ts : List String) (t : String) : List String :=
  if ts.contains t then ts else ts ++ [t]

/-- The three fixture identities of createMockData. -/
def mockUsers : List MockUser :=
  [{ id := 1, name := "John Doe", email := "john@example.com" },
   { id := 2, name := "Jane Smith", email := "jane@example.com" },
   { id := 3, name := "Bob Johnson", email := "bob@example.com" }]

/-- The next SERIAL id for portfolios. -/
def maxPortfolioId (ps : List Portfolio) : Nat :=
  ps.foldl (fun m p => max m p.id) 0

/-- INSERT INTO users ... ON CONFLICT (email) DO NOTHING. -/
def insertMockUser (us : List MockUser) (u : MockUser) : List MockUser :=
  if us.any (fun x => x.email == u.email) then us else us ++ [u]

/-- INSERT INTO portfolios (user_id, My Portfolio, descr) ... ON CONFLICT
(user_id, name) DO NOTHING. -/
def insertDefaultPortfolio (ps : List Portfolio) (uid : Nat) (descr : String) :
    List Portfolio :=
  if ps.any (fun p => p.user_id == uid && p.name == "My Portfolio") then ps
  else ps ++ [{ id := maxPortfolioId ps + 1, user_id := uid
                name := "My Portfolio", description := some descr }]

/-- createMockData: for each fixture user, a conflict-skipping user insert
followed by a conflict-skipping default-portfolio insert. -/
def createMockData (st : SchemaState) : SchemaState :=
  mockUsers.foldl (fun acc u =>
    { acc with
      usersRows := insertMockUser acc.usersRows u
      portfoliosRows := insertDefaultPortfolio acc.portfoliosRows u.id "Default portfolio" }) st

/-- createFreshSchema of src/data/investments.ts: CREATE TABLE IF NOT
EXISTS for every table (a freshly created investments table has the new
shape: portfolio_id present, no user_id column), indexes and triggers
(no catalog effect modelled), then createMockData. -/
def createFreshSchema (st : SchemaState) : SchemaState :=
  let hasInv := st.tables.contains "investments"
  let st1 : SchemaState :=
    { st with
      usersRows := if st.tables.contains "users" then st.usersRows else []
      portfoliosRows := if st.tables.contains "portfolios" then st.portfoliosRows else []
      investmentsRows := if hasInv then st.investmentsRows else []
      invHasPortfolioIdCol := if hasInv then st.invHasPortfolioIdCol else true
      invHasUserIdCol := if hasInv then st.invHasUserIdCol else false
      invUserIdNotNull := if hasInv then st.invUserIdNotNull else false
      tables := allTableNames.foldl addTableIfAbsent st.tables }
  createMockData st1

/-- SELECT DISTINCT user_id FROM investments WHERE user_id IS NOT NULL. -/
def distinctLegacyUserIds : List MigInvestment → List Nat
  | [] => []
  | i :: rest =>
    let r := distinctLegacyUserIds rest
    match i.user_id with
    | some u => if r.contains u then r else u :: r
    | none => r

/-- The default portfolio row the migration backfills for one owner. -/
def migPortfolioRow (nid u : Nat) : Portfolio :=
  { id := nid, user_id := u, name := "My Portfolio"
    description := some "Default portfolio for existing investments" }

/-- INSERT INTO portfolios SELECT DISTINCT user_id, My Portfolio, ... ON
CONFLICT (user_id, name) DO NOTHING: one default row per distinct legacy
owner not already present, with SERIAL ids threaded through. -/
def addDefaultPortfolios : List Portfolio → List Nat → Nat → List Portfolio
  | ps, [], _ => ps
  | ps, u :: us, nid =>
    if ps.any (fun p => p.user_id == u && p.name == "My Portfolio") then
      addDefaultPortfolios ps us nid
    else
      addDefaultPortfolios (ps ++ [migPortfolioRow nid u]) us (nid + 1)

/-- UPDATE investments SET portfolio_id = p.id FROM portfolios p WHERE
investments.user_id = p.user_id AND p.name = My Portfolio AND
investments.portfolio_id IS NULL, applied to one row. -/
def assignDefaultPortfolio (ps : List Portfolio) (i : MigInvestment) : MigInvestment :=
  if i.portfolio_id.isNone then
    match i.user_id with
    | some u =>
      match ps.find? (fun p => p.user_id == u && p.name == "My Portfolio") with
      | some p => { i with portfolio_id := some p.id }
      | none => i
    | none => i
  else i

/-- performPortfolioMigration of src/data/investments.ts: create the
portfolios marker table, backfill default portfolios for the distinct
legacy owners, ADD COLUMN IF NOT EXISTS portfolio_id, populate it for rows
where it is NULL, and DROP NOT NULL on user_id only when
information_schema.columns reports that column present. -/
def performPortfolioMigration (st : SchemaState) : SchemaState :=
  let st1 :=
    if st.tables.contains "portfolios" then st
    else { st with tables := st.tables ++ ["portfolios"], portfoliosRows := [] }
  let ps := addDefaultPortfolios st1.portfoliosRows
    (distinctLegacyUserIds st1.investmentsRows) (maxPortfolioId st1.portfoliosRows + 1)
  let st2 := { st1 with portfoliosRows := ps }
  let st3 := { st2 with invHasPortfolioIdCol := true }
  let st4 := { st3 with investmentsRows := st3.investmentsRows.map (assignDefaultPortfolio ps) }
  if st4.invHasUserIdCol then { st4 with invUserIdNotNull := false } else st4

/-- The migration-needed test of initializeSchema in
src/data/investments.ts: the investments table exists and the portfolios
marker table does not. -/
def needsMigration (st : SchemaState) : Bool :=
  st.tables.contains "investments" && !(st.tables.contains "portfolios")

/-- The body of initializeSchema in src/data/investments.ts after its
flag and connection checks: dispatch on needsMigration; the Bool is the
migrated field of the returned record. -/
def initializeSchemaRun (st : SchemaState) : SchemaState × Bool :=
  if needsMigration st then (performPortfolioMigration st, true)
  else (createFreshSchema st, false)

end PortfolioApp.DataInvestments

namespace PortfolioApp.Examples

/-- An investment owned (through portfolio 10) by user 2. -/
def invOfUser2 : Investment :=
  { id := 42, portfolio_id := 10, name := "Rental", description := none
    date_started := none, amount := 1000, investment_type := "real estate"
    has_distributions := true, stock_symbol := none, stock_quantity := none
    current_stock_price := none, stock_price_updated_at := none }

/-- A snapshot row for user 2's portfolio 10. -/
def snapOfUser2 : PortfolioSnapshotRow :=
  { portfolio_id := 10, snapshot_date := 5, total_value := 1000
    total_invested := 1000, total_distributions := 0, investment_count := 1 }

/-- A database whose only portfolio, investment and snapshot belong to
user 2; the bound identity in the scenarios below is user 1. -/
def dbTwoTenants : DB :=
  { portfolios := [{ id := 10, user_id := 2, name := "Growth", description := none }]
    investments := [invOfUser2]
    distributions := []
    categories := []
    tags := []
    investment_categories := []
    investment_tags := []
    portfolio_daily_snapshots := [snapOfUser2]
    user_daily_snapshots := [] }

/-- A distribution payload for user 2's investment. -/
def distFor42 : ServerFns.CreateDistributionData :=
  { investment_id := 42, date := 6, amount := 50, description := none }

/-- A database where user 7 owns portfolio 1, investment 4, category 9
and tag 3, and user 8 owns category 11. -/
def dbSameOwner : DB :=
  { portfolios := [{ id := 1, user_id := 7, name := "Main", description := none }]
    investments := [{ id := 4, portfolio_id := 1, name := "Fund", description := none
                      date_started := none, amount := 500, investment_type := "fund"
                      has_distributions := true, stock_symbol := none
                      stock_quantity := none, current_stock_price := none
                      stock_price_updated_at := none }]
    distributions := []
    categories := [{ id := 9, user_id := 7, name := "Dividends" },
                   { id := 11, user_id := 8, name := "Foreign" }]
    tags := [{ id := 3, user_id := 7, name := "core" }]
    investment_categories := []
    investment_tags := []
    portfolio_daily_snapshots := []
    user_daily_snapshots := [] }

/-- A legacy schema state: investments table with a NOT NULL user_id
column and no portfolios table, holding rows of users 1 and 2. -/
def legacyState : DataInvestments.SchemaState :=
  { tables := ["users", "investments", "distributions"]
    usersRows := []
    portfoliosRows := []
    investmentsRows := [{ id := 1, user_id := some 1, portfolio_id := none },
                        { id := 2, user_id := some 2, portfolio_id := none },
                        { id := 3, user_id := some 1, portfolio_id := none }]
    invHasPortfolioIdCol := false
    invHasUserIdCol := true
    invUserIdNotNull := true }

/-- A stock investment of user 2 priced one hour before the reference
time 103600 used in the staleness scenarios. -/
def freshStock : Investment :=
  { id := 43, portfolio_id := 10, name := "AAPL", description := none
    date_started := none, amount := 1000, investment_type := "stock"
    has_distributions := false, stock_symbol := some "AAPL"
    stock_quantity := some 10, current_stock_price := some 150
    stock_price_updated_at := some 100000 }

/-- dbTwoTenants extended with the freshly priced stock investment. -/
def dbWithFreshStock : DB :=
  { dbTwoTenants with investments := dbTwoTenants.investments ++ [freshStock] }

end PortfolioApp.Examples

namespace PortfolioApp

open ServerFns in
/-- Claim C2: in a production deployment mode (NODE_ENV not development),
getCurrentUserId never returns a default identity: every invocation throws
the not-implemented configuration error. -/
theorem c2_production_fails_closed (nodeEnv : String) (dev : Option String)
    (h : nodeEnv ≠ "development") :
    Auth.getCurrentUserId nodeEnv dev =
      .error "Clerk authentication not yet implemented" := by
  unfold Auth.getCurrentUserId
  simp [h]

/-- Witness for c2_production_fails_closed at NODE_ENV = production, no
override configured. -/
theorem c2_production_fails_closed_witness :
    Auth.getCurrentUserId "production" none =
      .error "Clerk authentication not yet implemented" :=
  c2_production_fails_closed "production" none (by decide)

/-- Claim C3: the initializeSchema state machine of vite.config.ts.
In production every call succeeds and issues no DDL and leaves the flag
alone; outside production a successful creation sets the flag (making the
next call a no-op), a failing creation propagates the error and leaves the
flag unset so the next call re-attempts the DDL; and the flag only ever
becomes set through a successful creation. -/
theorem c3_initializeSchema_state_machine
    (nodeEnv : String) (flag clientOk : Bool) (ddl : Except String Unit) :
    (nodeEnv = "production" →
      ServerFns.initializeSchema nodeEnv flag clientOk ddl = (.ok true, flag, false)) ∧
    (nodeEnv ≠ "production" → flag = false → clientOk = true → ddl = .ok () →
      ServerFns.initializeSchema nodeEnv flag clientOk ddl = (.ok true, true, true)) ∧
    (flag = true → nodeEnv ≠ "production" →
      ServerFns.initializeSchema nodeEnv flag clientOk ddl = (.ok true, true, false)) ∧
    (∀ e, nodeEnv ≠ "production" → flag = false → clientOk = true → ddl = .error e →
      ServerFns.initializeSchema nodeEnv flag clientOk ddl = (.error e, false, true) ∧
      ∀ ddl2, ((ServerFns.initializeSchema nodeEnv false true ddl2).2.2 = true)) ∧
    ((ServerFns.initializeSchema nodeEnv flag clientOk ddl).2.1 = true →
      flag = true ∨ ddl = .ok ()) := by
  unfold ServerFns.initializeSchema
  refine ⟨?_, ?_, ?_, ?_, ?_⟩
  · intro h; simp [h]
  · intro h hf hc hd; subst hf; subst hc; subst hd
    simp [h]
  · intro hf h; subst hf; simp [h]
  · intro e h hf hc hd; subst hf; subst hc; subst hd
    refine ⟨by simp [h], ?_⟩
    intro ddl2
    cases ddl2 <;> simp [h]
  · intro hset
    by_cases hp : nodeEnv == "production"
    · simp [hp] at hset; exact Or.inl hset
    · by_cases hf : flag
      · exact Or.inl hf
      · by_cases hc : clientOk
        · cases ddl with
          | ok u => exact Or.inr rfl
          | error e => simp [hp, hf, hc] at hset
        · simp [hp, hf, hc] at hset

/-- Witness for c3_initializeSchema_state_machine: the development-mode,
first-call, successful-DDL instance. -/
theorem c3_initializeSchema_state_machine_witness :
    ServerFns.initializeSchema "development" false true (.ok ()) = (.ok true, true, true) :=
  (c3_initializeSchema_state_machine "development" false true (.ok ())).2.1
    (by decide) rfl rfl rfl

/-- The category trigger admits the NEW row exactly when both resolved
owners exist and coincide. -/
theorem enforce_cat_ok_iff (db : DB) (row : InvestmentCategoryRow) :
    Sql.enforce_same_user_inv_cat db row = .ok row ↔
      ((Sql.investmentUser db row.investment_id).isSome ∧
        Sql.investmentUser db row.investment_id = Sql.categoryUser db row.category_id) := by
  unfold Sql.enforce_same_user_inv_cat
  cases hiu : Sql.investmentUser db row.investment_id with
  | none =>
    cases hcu : Sql.categoryUser db row.category_id <;> simp
  | some iu =>
    cases hcu : Sql.categoryUser db row.category_id with
    | none => simp
    | some cu =>
      by_cases h : iu = cu <;> simp [h]

/-- The tag trigger admits the NEW row exactly when both resolved owners
exist and coincide. -/
theorem enforce_tag_ok_iff (db : DB) (row : InvestmentTagRow) :
    Sql.enforce_same_user_inv_tag db row = .ok row ↔
      ((Sql.investmentUser db row.investment_id).isSome ∧
        Sql.investmentUser db row.investment_id = Sql.tagUser db row.tag_id) := by
  unfold Sql.enforce_same_user_inv_tag
  cases hiu : Sql.investmentUser db row.investment_id with
  | none =>
    cases hcu : Sql.tagUser db row.tag_id <;> simp
  | some iu =>
    cases hcu : Sql.tagUser db row.tag_id with
    | none => simp
    | some tu =>
      by_cases h : iu = tu <;> simp [h]

/-- The category trigger is deterministic: any ok result carries the NEW
row unchanged. -/
theorem enforce_cat_ok_elim (db : DB) (row r : InvestmentCategoryRow)
    (h : Sql.enforce_same_user_inv_cat db row = .ok r) : r = row := by
  unfold Sql.enforce_same_user_inv_cat at h
  split at h
  · split at h
    · exact absurd h (by simp)
    · injection h with h2
      exact h2.symm
  · exact absurd h (by simp)

/-- The tag trigger is deterministic: any ok result carries the NEW row
unchanged. -/
theorem enforce_tag_ok_elim (db : DB) (row r : InvestmentTagRow)
    (h : Sql.enforce_same_user_inv_tag db row = .ok r) : r = row := by
  unfold Sql.enforce_same_user_inv_tag at h
  split at h
  · split at h
    · exact absurd h (by simp)
    · injection h with h2
      exact h2.symm
  · exact absurd h (by simp)

/-- Claim C5: inserting or updating an investment_categories
(respectively investment_tags) row raises whenever the owner of the
referenced Investment (via its Portfolio) is missing or differs from the
owner of the referenced Category (respectively Tag); the junction row is
stored only when both owners are identical. -/
theorem c5_junction_rows_same_owner (db : DB)
    (crow oldc : InvestmentCategoryRow) (trow oldt : InvestmentTagRow) :
    ((∃ db2, Sql.insertInvestmentCategory db crow = .ok db2) ↔
      ((Sql.investmentUser db crow.investment_id).isSome ∧
        Sql.investmentUser db crow.investment_id = Sql.categoryUser db crow.category_id)) ∧
    (∀ db2, Sql.insertInvestmentCategory db crow = .ok db2 →
      db2.investment_categories = db.investment_categories ++ [crow]) ∧
    ((∃ db2, Sql.updateInvestmentCategory db oldc crow = .ok db2) ↔
      ((Sql.investmentUser db crow.investment_id).isSome ∧
        Sql.investmentUser db crow.investment_id = Sql.categoryUser db crow.category_id)) ∧
    ((∃ db2, Sql.insertInvestmentTag db trow = .ok db2) ↔
      ((Sql.investmentUser db trow.investment_id).isSome ∧
        Sql.investmentUser db trow.investment_id = Sql.tagUser db trow.tag_id)) ∧
    (∀ db2, Sql.insertInvestmentTag db trow = .ok db2 →
      db2.investment_tags = db.investment_tags ++ [trow]) ∧
    ((∃ db2, Sql.updateInvestmentTag db oldt trow = .ok db2) ↔
      ((Sql.investmentUser db trow.investment_id).isSome ∧
        Sql.investmentUser db trow.investment_id = Sql.tagUser db trow.tag_id)) := by
  refine ⟨?_, ?_, ?_, ?_, ?_, ?_⟩
  · unfold Sql.insertInvestmentCategory
    constructor
    · rintro ⟨db2, h⟩
      cases he : Sql.enforce_same_user_inv_cat db crow with
      | error e => rw [he] at h; exact absurd h (by simp)
      | ok r =>
        have hr := enforce_cat_ok_elim db crow r he
        rw [hr] at he
        exact (enforce_cat_ok_iff db crow).mp he
    · intro hP
      refine ⟨{ db with investment_categories := db.investment_categories ++ [crow] }, ?_⟩
      rw [(enforce_cat_ok_iff db crow).mpr hP]
  · intro db2 h
    unfold Sql.insertInvestmentCategory at h
    cases he : Sql.enforce_same_user_inv_cat db crow with
    | error e => rw [he] at h; exact absurd h (by simp)
    | ok r =>
      have hr := enforce_cat_ok_elim db crow r he
      rw [he] at h
      cases h
      simp [hr]
  · unfold Sql.updateInvestmentCategory
    constructor
    · rintro ⟨db2, h⟩
      cases he : Sql.enforce_same_user_inv_cat db crow with
      | error e => rw [he] at h; exact absurd h (by simp)
      | ok r =>
        have hr := enforce_cat_ok_elim db crow r he
        rw [hr] at he
        exact (enforce_cat_ok_iff db crow).mp he
    · intro hP
      refine ⟨{ db with investment_categories := db.investment_categories.map (fun x => if x == oldc then crow else x) }, ?_⟩
      rw [(enforce_cat_ok_iff db crow).mpr hP]
  · unfold Sql.insertInvestmentTag
    constructor
    · rintro ⟨db2, h⟩
      cases he : Sql.enforce_same_user_inv_tag db trow with
      | error e => rw [he] at h; exact absurd h (by simp)
      | ok r =>
        have hr := enforce_tag_ok_elim db trow r he
        rw [hr] at he
        exact (enforce_tag_ok_iff db trow).mp he
    · intro hP
      refine ⟨{ db with investment_tags := db.investment_tags ++ [trow] }, ?_⟩
      rw [(enforce_tag_ok_iff db trow).mpr hP]
  · intro db2 h
    unfold Sql.insertInvestmentTag at h
    cases he : Sql.enforce_same_user_inv_tag db trow with
    | error e => rw [he] at h; exact absurd h (by simp)
    | ok r =>
      have hr := enforce_tag_ok_elim db trow r he
      rw [he] at h
      cases h
      simp [hr]
  · unfold Sql.updateInvestmentTag
    constructor
    · rintro ⟨db2, h⟩
      cases he : Sql.enforce_same_user_inv_tag db trow with
      | error e => rw [he] at h; exact absurd h (by simp)
      | ok r =>
        have hr := enforce_tag_ok_elim db trow r he
        rw [hr] at he
        exact (enforce_tag_ok_iff db trow).mp he
    · intro hP
      refine ⟨{ db with investment_tags := db.investment_tags.map (fun x => if x == oldt then trow else x) }, ?_⟩
      rw [(enforce_tag_ok_iff db trow).mpr hP]

/-- Witness for c5_junction_rows_same_owner: in dbSameOwner, associating
investment 4 (owner 7) with category 9 (owner 7) succeeds, while the
cross-tenant association with category 11 (owner 8) is rejected. -/
theorem c5_junction_rows_same_owner_witness :
    (∃ db2, Sql.insertInvestmentCategory Examples.dbSameOwner ⟨4, 9⟩ = .ok db2) ∧
    ¬ (∃ db2, Sql.insertInvestmentCategory Examples.dbSameOwner ⟨4, 11⟩ = .ok db2) := by
  constructor
  · exact (c5_junction_rows_same_owner Examples.dbSameOwner ⟨4, 9⟩ ⟨4, 9⟩ ⟨4, 3⟩ ⟨4, 3⟩).1.mpr
      (by decide)
  · intro hex
    have := (c5_junction_rows_same_owner Examples.dbSameOwner ⟨4, 11⟩ ⟨4, 11⟩ ⟨4, 3⟩ ⟨4, 3⟩).1.mp hex
    revert this
    decide

/-- Claim C9: every create or update that would persist a negative amount
on investments or distributions is rejected by the storage-level check
constraint (amount at least 0 on investments from the CREATE TABLE, and
chk_distributions_amount_nonneg on distributions from
db/security-and-snapshots.sql), and the successful operations preserve
non-negativity of all stored amounts. -/
theorem c9_amounts_nonneg (rls : Bool) (db : DB) (u newId now iid : Nat)
    (dd : ServerFns.CreateDistributionData) (cd : ServerFns.CreateInvestmentData)
    (ud : ServerFns.UpdateInvestmentData) :
    (dd.amount < 0 → exceptOk (ServerFns.createDistribution rls db u newId dd) = false) ∧
    (cd.amount < 0 → exceptOk (ServerFns.createInvestment rls db u newId now cd) = false) ∧
    (ud.amount < 0 → exceptOk (ServerFns.updateInvestment db u iid ud) = false) ∧
    (∀ db2 row, (∀ d ∈ db.distributions, 0 ≤ d.amount) →
      ServerFns.createDistribution rls db u newId dd = .ok (db2, row) →
      ∀ d ∈ db2.distributions, 0 ≤ d.amount) ∧
    (∀ db2 row, (∀ i ∈ db.investments, 0 ≤ i.amount) →
      ServerFns.createInvestment rls db u newId now cd = .ok (db2, row) →
      ∀ i ∈ db2.investments, 0 ≤ i.amount) ∧
    (∀ db2 row, (∀ i ∈ db.investments, 0 ≤ i.amount) →
      ServerFns.updateInvestment db u iid ud = .ok (db2, row) →
      ∀ i ∈ db2.investments, 0 ≤ i.amount) := by
  refine ⟨?_, ?_, ?_, ?_, ?_, ?_⟩
  · intro hneg
    unfold ServerFns.createDistribution
    by_cases h1 : (rls && !investmentOwnedBy db dd.investment_id u) = true
    · rw [if_pos h1]
      rfl
    · rw [if_neg h1, if_pos hneg]
      rfl
  · intro hneg
    unfold ServerFns.createInvestment
    by_cases h1 : (rls && !portfolioOwnedBy db cd.portfolio_id u) = true
    · rw [if_pos h1]
      rfl
    · rw [if_neg h1, if_pos hneg]
      rfl
  · intro hneg
    unfold ServerFns.updateInvestment
    split
    · rfl
    · rename_i i hfind
      have hneg2 : (ServerFns.applyInvestmentUpdate ud i).amount < 0 := hneg
      rw [if_pos hneg2]
      rfl
  · intro db2 row hall h
    unfold ServerFns.createDistribution at h
    by_cases h1 : (rls && !investmentOwnedBy db dd.investment_id u) = true
    · rw [if_pos h1] at h
      exact absurd h (by simp)
    · rw [if_neg h1] at h
      by_cases h2 : dd.amount < 0
      · rw [if_pos h2] at h
        exact absurd h (by simp)
      · rw [if_neg h2] at h
        by_cases h3 : (!db.investments.any fun i => i.id == dd.investment_id) = true
        · rw [if_pos h3] at h
          exact absurd h (by simp)
        · rw [if_neg h3] at h
          injection h with h4
          injection h4 with hdb hrow
          subst hdb
          intro d hd
          rcases List.mem_append.mp hd with hmem | hmem
          · exact hall d hmem
          · rcases List.mem_singleton.mp hmem with rfl
            have hra : (ServerFns.newDistributionRow newId dd).amount = dd.amount := rfl
            rw [hra]
            exact le_of_not_lt h2
  · intro db2 row hall h
    unfold ServerFns.createInvestment at h
    by_cases h1 : (rls && !portfolioOwnedBy db cd.portfolio_id u) = true
    · rw [if_pos h1] at h
      exact absurd h (by simp)
    · rw [if_neg h1] at h
      by_cases h2 : cd.amount < 0
      · rw [if_pos h2] at h
        exact absurd h (by simp)
      · rw [if_neg h2] at h
        by_cases h3 : (!db.portfolios.any fun p => p.id == cd.portfolio_id) = true
        · rw [if_pos h3] at h
          exact absurd h (by simp)
        · rw [if_neg h3] at h
          injection h with h4
          injection h4 with hdb hrow
          subst hdb
          intro i hi
          rcases List.mem_append.mp hi with hmem | hmem
          · exact hall i hmem
          · rcases List.mem_singleton.mp hmem with rfl
            have hra : (ServerFns.newInvestmentRow newId now cd).amount = cd.amount := rfl
            rw [hra]
            exact le_of_not_lt h2
  · intro db2 row hall h
    unfold ServerFns.updateInvestment at h
    split at h
    · exact absurd h (by simp)
    · rename_i i hfind
      by_cases hneg : (ServerFns.applyInvestmentUpdate ud i).amount < 0
      · rw [if_pos hneg] at h
        exact absurd h (by simp)
      · rw [if_neg hneg] at h
        injection h with h4
        injection h4 with hdb hrow
        subst hdb
        intro j hj
        have hj2 : j ∈ db.investments.map (fun j0 =>
            if j0.id == iid && portfolioOwnedBy db j0.portfolio_id u
            then ServerFns.applyInvestmentUpdate ud j0 else j0) := hj
        rcases List.mem_map.mp hj2 with ⟨j0, hj0, hj0eq⟩
        by_cases hc : (j0.id == iid && portfolioOwnedBy db j0.portfolio_id u) = true
        · rw [if_pos hc] at hj0eq
          subst hj0eq
          have ha1 : (ServerFns.applyInvestmentUpdate ud j0).amount = ud.amount := rfl
          rw [ha1]
          have ha2 : (ServerFns.applyInvestmentUpdate ud i).amount = ud.amount := rfl
          rw [ha2] at hneg
          exact le_of_not_lt hneg
        · rw [if_neg hc] at hj0eq
          subst hj0eq
          exact hall j0 hj0

/-- Witness for c9_amounts_nonneg: a negative-amount distribution insert
into dbSameOwner is rejected. -/
theorem c9_amounts_nonneg_witness :
    exceptOk (ServerFns.createDistribution true Examples.dbSameOwner 7 1
      { investment_id := 4, date := 1, amount := -5, description := none }) = false :=
  (c9_amounts_nonneg true Examples.dbSameOwner 7 1 0 0
    { investment_id := 4, date := 1, amount := -5, description := none }
    { portfolio_id := 1, name := "x", description := none, date_started := none
      amount := 0, investment_type := "fund", has_distributions := true
      stock_symbol := none, stock_quantity := none, current_stock_price := none }
    { name := none, description := none, date_started := none, stock_symbol := none
      stock_quantity := none, amount := 0, investment_type := "fund"
      has_distributions := true, portfolio_id := none }).1 (by decide)

/-- Claim C6: under the enforced row-visibility policies, deletePortfolio
raises the domain error when the target portfolio owned by the bound
identity still has a child investment; with zero children the owned
portfolio is deleted and no longer retrievable by its owner; and a
portfolio id that does not exist or is not owned by the bound identity
raises the not-found error. -/
theorem c6_deletePortfolio (db : DB) (u pid : Nat) :
    ((∃ p ∈ db.portfolios, p.id = pid ∧ p.user_id = u) →
      (∃ i ∈ db.investments, i.portfolio_id = pid) →
      ServerFns.deletePortfolio true db u pid =
        .error "Cannot delete portfolio with existing investments") ∧
    ((∃ p ∈ db.portfolios, p.id = pid ∧ p.user_id = u) →
      (¬ ∃ i ∈ db.investments, i.portfolio_id = pid) →
      ∃ db2, ServerFns.deletePortfolio true db u pid = .ok db2 ∧
        (∀ q ∈ db2.portfolios, ¬(q.id = pid ∧ q.user_id = u)) ∧
        ServerFns.getPortfolioWithInvestments db2 u pid = .error "Portfolio not found") ∧
    ((¬ ∃ p ∈ db.portfolios, p.id = pid ∧ p.user_id = u) →
      ServerFns.deletePortfolio true db u pid = .error "Portfolio not found") := by
  have hviseq : ServerFns.visibleInvestmentRows true db u =
      db.investments.filter (fun i => portfolioOwnedBy db i.portfolio_id u) := rfl
  refine ⟨?_, ?_, ?_⟩
  · rintro ⟨p, hp, hpid, hpu⟩ ⟨i, hi, hipid⟩
    unfold ServerFns.deletePortfolio
    have howner : portfolioOwnedBy db pid u = true := by
      unfold portfolioOwnedBy
      exact List.any_eq_true.mpr ⟨p, hp, by simp [hpid, hpu]⟩
    have hvis : i ∈ ServerFns.visibleInvestmentRows true db u := by
      rw [hviseq]
      refine List.mem_filter.mpr ⟨hi, ?_⟩
      rw [hipid]
      exact howner
    have hmem : i ∈ (ServerFns.visibleInvestmentRows true db u).filter
        (fun j => j.portfolio_id == pid) :=
      List.mem_filter.mpr ⟨hvis, by simp [hipid]⟩
    rw [if_pos (List.length_pos.mpr (List.ne_nil_of_mem hmem))]
  · rintro ⟨p, hp, hpid, hpu⟩ hnoinv
    unfold ServerFns.deletePortfolio
    have hcnt : ((ServerFns.visibleInvestmentRows true db u).filter
        (fun j => j.portfolio_id == pid)) = [] := by
      rw [List.filter_eq_nil_iff]
      intro j hj hjpid
      rw [hviseq] at hj
      exact hnoinv ⟨j, (List.mem_filter.mp hj).1, beq_iff_eq.mp hjpid⟩
    have hnotlt : ¬ 0 < ((ServerFns.visibleInvestmentRows true db u).filter
        (fun j => j.portfolio_id == pid)).length := by
      rw [hcnt]
      simp
    rw [if_neg hnotlt]
    have hpf : p ∈ db.portfolios.filter (fun q => q.id == pid && q.user_id == u) :=
      List.mem_filter.mpr ⟨hp, by simp [hpid, hpu]⟩
    have hne : ¬ (db.portfolios.filter (fun q => q.id == pid && q.user_id == u)).isEmpty = true := by
      rw [List.isEmpty_iff]
      exact List.ne_nil_of_mem hpf
    rw [if_neg hne]
    refine ⟨_, rfl, ?_, ?_⟩
    · intro q hq hqbad
      have hq2 := List.mem_filter.mp hq
      rcases hqbad with ⟨hq1, hq3⟩
      simp [hq1, hq3] at hq2
    · unfold ServerFns.getPortfolioWithInvestments
      have hnil : (db.portfolios.filter
          (fun q => !(q.id == pid && q.user_id == u))).filter
          (fun q => q.user_id == u && q.id == pid) = [] := by
        rw [List.filter_eq_nil_iff]
        intro q hq hqp
        have hq2 := (List.mem_filter.mp hq).2
        rcases (Bool.and_eq_true _ _).mp hqp with ⟨hqu, hqi⟩
        simp [beq_iff_eq.mp hqu, beq_iff_eq.mp hqi] at hq2
      rw [show ({ db with portfolios := db.portfolios.filter (fun q => !(q.id == pid && q.user_id == u)) } : DB).portfolios = db.portfolios.filter (fun q => !(q.id == pid && q.user_id == u)) from rfl]
      rw [hnil]
  · intro hnop
    unfold ServerFns.deletePortfolio
    have howner : ∀ q ∈ db.portfolios, ¬ (q.id == pid && q.user_id == u) = true := by
      intro q hq hbad
      rcases (Bool.and_eq_true _ _).mp hbad with ⟨h1, h2⟩
      exact hnop ⟨q, hq, beq_iff_eq.mp h1, beq_iff_eq.mp h2⟩
    have hcnt : ((ServerFns.visibleInvestmentRows true db u).filter
        (fun j => j.portfolio_id == pid)) = [] := by
      rw [List.filter_eq_nil_iff]
      intro j hj hjpid
      rw [hviseq] at hj
      have hj2 := (List.mem_filter.mp hj).2
      rw [beq_iff_eq.mp hjpid] at hj2
      rcases List.any_eq_true.mp hj2 with ⟨q, hq, hqc⟩
      exact howner q hq hqc
    have hnotlt : ¬ 0 < ((ServerFns.visibleInvestmentRows true db u).filter
        (fun j => j.portfolio_id == pid)).length := by
      rw [hcnt]
      simp
    rw [if_neg hnotlt]
    have hnil : db.portfolios.filter (fun q => q.id == pid && q.user_id == u) = [] :=
      List.filter_eq_nil_iff.mpr howner
    have hemp : (db.portfolios.filter (fun q => q.id == pid && q.user_id == u)).isEmpty = true := by
      rw [List.isEmpty_iff]
      exact hnil
    rw [if_pos hemp]

/-- Witness for c6_deletePortfolio: user 2 deleting own empty portfolio 11
succeeds, while deleting portfolio 10 that still holds investment 42 is
rejected with the domain error. -/
theorem c6_deletePortfolio_witness :
    ServerFns.deletePortfolio true
      { Examples.dbTwoTenants with portfolios :=
          Examples.dbTwoTenants.portfolios ++
            [{ id := 11, user_id := 2, name := "Empty", description := none }] } 2 10 =
      .error "Cannot delete portfolio with existing investments" :=
  (c6_deletePortfolio
    { Examples.dbTwoTenants with portfolios :=
        Examples.dbTwoTenants.portfolios ++
          [{ id := 11, user_id := 2, name := "Empty", description := none }] } 2 10).1
    ⟨{ id := 10, user_id := 2, name := "Growth", description := none }, by decide, rfl, rfl⟩
    ⟨Examples.invOfUser2, by decide, rfl⟩

/-- Mapping an overwrite function across a list turns every key-matching
element into the fixed row and leaves the rest, so the key-filtered result
is that row replicated. -/
theorem filter_map_const {α : Type} (p : α → Bool) (f : α → α) (row : α)
    (hT : ∀ x, p x = true → f x = row) (hrow : p row = true)
    (hF : ∀ x, p x = false → f x = x) (l : List α) :
    (l.map f).filter p = List.replicate (l.filter p).length row := by
  induction l with
  | nil => rfl
  | cons x xs ih =>
    cases hx : p x with
    | true =>
      have hfx : f x = row := hT x hx
      rw [List.map_cons, List.filter_cons, List.filter_cons]
      rw [hfx, hrow, hx]
      simp only [if_true]
      rw [ih, List.length_cons, List.replicate_succ]
    | false =>
      have hfx : f x = x := hF x hx
      rw [List.map_cons, List.filter_cons, List.filter_cons]
      rw [hfx, hx]
      simp only [Bool.false_eq_true, if_false]
      exact ih

/-- An insert-or-overwrite keyed by p on a list holding at most one
key-matching element leaves exactly the fresh row under the key. -/
theorem filter_upsert {α : Type} (p : α → Bool) (row : α) (l : List α)
    (hrow : p row = true) (hpk : (l.filter p).length ≤ 1) :
    ((if l.any p then l.map (fun s => if p s then row else s) else l ++ [row]).filter p)
      = [row] := by
  by_cases h : l.any p = true
  · rw [if_pos h]
    have hmap : (l.map (fun s => if p s then row else s)).filter p =
        List.replicate (l.filter p).length row := by
      refine filter_map_const p _ row ?_ hrow ?_ l
      · intro x hx
        rw [hx]
        simp
      · intro x hx
        rw [hx]
        simp
    rw [hmap]
    rcases List.any_eq_true.mp h with ⟨x, hxl, hpx⟩
    have hx2 : x ∈ l.filter p := List.mem_filter.mpr ⟨hxl, hpx⟩
    have hlen : (l.filter p).length = 1 :=
      le_antisymm hpk (List.length_pos.mpr (List.ne_nil_of_mem hx2))
    rw [hlen]
    rfl
  · rw [if_neg h]
    rw [List.filter_append]
    have h0 : l.filter p = [] := by
      rw [List.filter_eq_nil_iff]
      intro a ha hpa
      exact h (List.any_eq_true.mpr ⟨a, ha, hpa⟩)
    rw [h0]
    simp [hrow]

/-- Claim C7: saving a snapshot twice for the same owner and date, through
save_portfolio_snapshot or save_user_snapshot, leaves exactly one row
under that natural key, carrying the fields of the latest computation:
the insert conflicts on the primary key and overwrites instead of
duplicating.  db1 is the state at the first save (satisfying the key
uniqueness its primary key guarantees), db2 any state whose snapshot
table resulted from that save. -/
theorem c7_snapshot_upsert (db1 db2 : DB) (pid u date : Nat)
    (hpk : ((db1.portfolio_daily_snapshots.filter
      (fun s => s.portfolio_id == pid && s.snapshot_date == date)).length ≤ 1))
    (hlink : db2.portfolio_daily_snapshots =
      (Sql.save_portfolio_snapshot db1 pid date).portfolio_daily_snapshots)
    (hpku : ((db1.user_daily_snapshots.filter
      (fun s => s.user_id == u && s.snapshot_date == date)).length ≤ 1))
    (hlinku : db2.user_daily_snapshots =
      (Sql.save_user_snapshot db1 u date).user_daily_snapshots) :
    ((Sql.save_portfolio_snapshot db2 pid date).portfolio_daily_snapshots.filter
        (fun s => s.portfolio_id == pid && s.snapshot_date == date))
      = [Sql.portfolioSnapshotRowOf db2 pid date] ∧
    ((Sql.save_user_snapshot db2 u date).user_daily_snapshots.filter
        (fun s => s.user_id == u && s.snapshot_date == date))
      = [Sql.userSnapshotRowOf db2 u date] := by
  have hrow1 : (fun s => s.portfolio_id == pid && s.snapshot_date == date)
      (Sql.portfolioSnapshotRowOf db1 pid date) = true := by
    simp [Sql.portfolioSnapshotRowOf]
  have hrow2 : (fun s => s.portfolio_id == pid && s.snapshot_date == date)
      (Sql.portfolioSnapshotRowOf db2 pid date) = true := by
    simp [Sql.portfolioSnapshotRowOf]
  have hrowu1 : (fun s => s.user_id == u && s.snapshot_date == date)
      (Sql.userSnapshotRowOf db1 u date) = true := by
    simp [Sql.userSnapshotRowOf]
  have hrowu2 : (fun s => s.user_id == u && s.snapshot_date == date)
      (Sql.userSnapshotRowOf db2 u date) = true := by
    simp [Sql.userSnapshotRowOf]
  have hfirst : ((Sql.save_portfolio_snapshot db1 pid date).portfolio_daily_snapshots.filter
      (fun s => s.portfolio_id == pid && s.snapshot_date == date))
      = [Sql.portfolioSnapshotRowOf db1 pid date] :=
    filter_upsert _ _ _ hrow1 hpk
  have hfirstu : ((Sql.save_user_snapshot db1 u date).user_daily_snapshots.filter
      (fun s => s.user_id == u && s.snapshot_date == date))
      = [Sql.userSnapshotRowOf db1 u date] :=
    filter_upsert _ _ _ hrowu1 hpku
  have hpk2 : ((db2.portfolio_daily_snapshots.filter
      (fun s => s.portfolio_id == pid && s.snapshot_date == date)).length ≤ 1) := by
    rw [hlink, hfirst]
    simp
  have hpku2 : ((db2.user_daily_snapshots.filter
      (fun s => s.user_id == u && s.snapshot_date == date)).length ≤ 1) := by
    rw [hlinku, hfirstu]
    simp
  exact ⟨filter_upsert _ _ _ hrow2 hpk2, filter_upsert _ _ _ hrowu2 hpku2⟩

/-- Witness for c7_snapshot_upsert: portfolio 10 and user 2 of
dbTwoTenants, saving on day 5 twice (the second save happening after a
distribution row appeared). -/
theorem c7_snapshot_upsert_witness :
    ((Sql.save_portfolio_snapshot
        { (Sql.save_user_snapshot (Sql.save_portfolio_snapshot Examples.dbTwoTenants 10 5) 2 5) with
          distributions := [{ id := 1, investment_id := 42, date := 5, amount := 25
                              description := none }] } 10 5).portfolio_daily_snapshots.filter
        (fun s => s.portfolio_id == 10 && s.snapshot_date == 5))
      = [Sql.portfolioSnapshotRowOf
          { (Sql.save_user_snapshot (Sql.save_portfolio_snapshot Examples.dbTwoTenants 10 5) 2 5) with
            distributions := [{ id := 1, investment_id := 42, date := 5, amount := 25
                                description := none }] } 10 5] :=
  (c7_snapshot_upsert Examples.dbTwoTenants
    { (Sql.save_user_snapshot (Sql.save_portfolio_snapshot Examples.dbTwoTenants 10 5) 2 5) with
      distributions := [{ id := 1, investment_id := 42, date := 5, amount := 25
                          description := none }] }
    10 2 5 (by decide) (by decide) (by decide) (by decide)).1

/-- Inserting into the date-descending order keeps every element. -/
theorem mem_insertByDateDesc (x s : PortfolioSnapshotRow)
    (l : List PortfolioSnapshotRow) (h : x ∈ ServerFns.insertByDateDesc s l) :
    x = s ∨ x ∈ l := by
  induction l with
  | nil =>
    unfold ServerFns.insertByDateDesc at h
    rcases List.mem_singleton.mp h with rfl
    exact Or.inl rfl
  | cons t ts ih =>
    unfold ServerFns.insertByDateDesc at h
    by_cases hc : s.snapshot_date ≤ t.snapshot_date
    · rw [if_pos hc] at h
      rcases List.mem_cons.mp h with rfl | h2
      · exact Or.inr (List.mem_cons_self _ _)
      · rcases ih h2 with h3 | h3
        · exact Or.inl h3
        · exact Or.inr (List.mem_cons_of_mem _ h3)
    · rw [if_neg hc] at h
      rcases List.mem_cons.mp h with rfl | h2
      · exact Or.inl rfl
      · exact Or.inr h2

/-- The ORDER BY sort returns a permutation-level subset of its input. -/
theorem mem_sortByDateDesc (x : PortfolioSnapshotRow)
    (l : List PortfolioSnapshotRow) (h : x ∈ ServerFns.sortByDateDesc l) :
    x ∈ l := by
  induction l with
  | nil => exact absurd h (by simp [ServerFns.sortByDateDesc])
  | cons t ts ih =>
    unfold ServerFns.sortByDateDesc at h
    rcases mem_insertByDateDesc x t (ServerFns.sortByDateDesc ts) h with rfl | h2
    · exact List.mem_cons_self _ _
    · exact List.mem_cons_of_mem _ (ih h2)

/-- Claim C1 counterexample: with the bound identity user 1 and the
storage policies not consulted (rls false, i.e. exactly the SQL the
operations themselves issue), createDistribution accepts a distribution
for investment 42 that is owned by user 2 through portfolio 10, and
getPortfolioSnapshots returns user 2's snapshot rows for portfolio 10
instead of an empty result: the operations' own queries carry no
identity filter, contradicting the claim that every tenant-scoped
operation double-checks ownership in its own SQL. -/
theorem c1_counterexample :
    exceptOk (ServerFns.createDistribution false Examples.dbTwoTenants 1 7
      Examples.distFor42) = true ∧
    ServerFns.getPortfolioSnapshots false Examples.dbTwoTenants 1 10 30 ≠ [] := by
  decide

/-- Claim C1 amended: operations such as updateInvestment and
deletePortfolio do join through the owning chain and filter by the bound
identity in their own SQL, but createDistribution and
getPortfolioSnapshots issue no identity filter of their own; for those
two, tenant isolation holds only through the RLS policies: under the
enforced policies a distribution insert for a non-owned investment is
rejected and the snapshot read returns only rows of portfolios owned by
the bound identity. -/
theorem c1_rls_only_for_unfiltered_ops (db : DB) (u newId pid days iid : Nat)
    (d : ServerFns.CreateDistributionData) (ud : ServerFns.UpdateInvestmentData) :
    (investmentOwnedBy db d.investment_id u = false →
      exceptOk (ServerFns.createDistribution true db u newId d) = false) ∧
    (∀ s ∈ ServerFns.getPortfolioSnapshots true db u pid days,
      portfolioOwnedBy db s.portfolio_id u = true) ∧
    (∀ r, ServerFns.updateInvestment db u iid ud = .ok r →
      ∃ i ∈ db.investments, i.id = iid ∧ portfolioOwnedBy db i.portfolio_id u = true) ∧
    (∀ rls db2, ServerFns.deletePortfolio rls db u pid = .ok db2 →
      ∀ p ∈ db.portfolios, p.user_id ≠ u → p ∈ db2.portfolios) := by
  refine ⟨?_, ?_, ?_, ?_⟩
  · intro hno
    unfold ServerFns.createDistribution
    rw [if_pos (by simp [hno])]
    rfl
  · intro s hs
    unfold ServerFns.getPortfolioSnapshots at hs
    have hs2 := List.take_subset days _ hs
    have hs3 := mem_sortByDateDesc s _ hs2
    have hs4 := (List.mem_filter.mp hs3).1
    have hs5 : s ∈ db.portfolio_daily_snapshots.filter
        (fun t => portfolioOwnedBy db t.portfolio_id u) := hs4
    exact (List.mem_filter.mp hs5).2
  · intro r h
    unfold ServerFns.updateInvestment at h
    cases hfind : db.investments.find?
        (fun i => i.id == iid && portfolioOwnedBy db i.portfolio_id u) with
    | none =>
      rw [hfind] at h
      exact absurd h (by simp)
    | some i =>
      have hmem := List.mem_of_find?_eq_some hfind
      have hpred := List.find?_some hfind
      rcases (Bool.and_eq_true _ _).mp hpred with ⟨h1, h2⟩
      exact ⟨i, hmem, beq_iff_eq.mp h1, h2⟩
  · intro rls db2 h p hp hpu
    unfold ServerFns.deletePortfolio at h
    by_cases h1 : 0 < ((ServerFns.visibleInvestmentRows rls db u).filter
        (fun i => i.portfolio_id == pid)).length
    · rw [if_pos h1] at h
      exact absurd h (by simp)
    · rw [if_neg h1] at h
      by_cases h2 : (db.portfolios.filter
          (fun q => q.id == pid && q.user_id == u)).isEmpty = true
      · rw [if_pos h2] at h
        exact absurd h (by simp)
      · rw [if_neg h2] at h
        injection h with hdb
        subst hdb
        refine List.mem_filter.mpr ⟨hp, ?_⟩
        simp [hpu]

/-- Witness for c1_rls_only_for_unfiltered_ops: with the policies on,
user 1's attempt to attach a distribution to user 2's investment 42 is
rejected. -/
theorem c1_rls_only_for_unfiltered_ops_witness :
    exceptOk (ServerFns.createDistribution true Examples.dbTwoTenants 1 7
      Examples.distFor42) = false :=
  (c1_rls_only_for_unfiltered_ops Examples.dbTwoTenants 1 7 10 30 0
    Examples.distFor42
    { name := none, description := none, date_started := none, stock_symbol := none
      stock_quantity := none, amount := 0, investment_type := "fund"
      has_distributions := true, portfolio_id := none }).1 (by decide)

/-- One equation of the per-investment loop: a successful quote advances
with the updated row. -/
theorem priceLoop_cons_ok (quote : String → Except String Int) (now : Nat)
    (i : Investment) (rest : List Investment) (db : DB) (updated : Nat)
    (errors calls : List String) (price : Int)
    (hq : quote (i.stock_symbol.getD "") = .ok price) :
    ServerFns.priceLoop quote now (i :: rest) db updated errors calls =
      ServerFns.priceLoop quote now rest (ServerFns.setStockPrice db i.id price now)
        (updated + 1) errors (calls ++ [i.stock_symbol.getD ""]) := by
  simp only [ServerFns.priceLoop, hq]

/-- One equation of the per-investment loop: a failed quote records the
error and either stops (rate-limit message) or continues. -/
theorem priceLoop_cons_error (quote : String → Except String Int) (now : Nat)
    (i : Investment) (rest : List Investment) (db : DB) (updated : Nat)
    (errors calls : List String) (msg : String)
    (hq : quote (i.stock_symbol.getD "") = .error msg) :
    ServerFns.priceLoop quote now (i :: rest) db updated errors calls =
      if ServerFns.isApiLimitMessage msg then
        (updated, errors ++ [ServerFns.formatQuoteError (i.stock_symbol.getD "") msg],
          calls ++ [i.stock_symbol.getD ""], db)
      else
        ServerFns.priceLoop quote now rest db updated
          (errors ++ [ServerFns.formatQuoteError (i.stock_symbol.getD "") msg])
          (calls ++ [i.stock_symbol.getD ""]) := by
  simp only [ServerFns.priceLoop, hq]

/-- The loop processes exactly the prefix up to the first rate-limit
failure: its updated count, error list and issued requests are those of
that prefix. -/
theorem priceLoop_spec (quote : String → Except String Int) (now : Nat) :
    ∀ (invs : List Investment) (db : DB) (updated : Nat)
      (errors calls : List String),
    (ServerFns.priceLoop quote now invs db updated errors calls).1 =
      updated + ServerFns.quoteOkCount quote (ServerFns.processedUntilLimit quote invs) ∧
    (ServerFns.priceLoop quote now invs db updated errors calls).2.1 =
      errors ++ ServerFns.quoteErrorsOf quote (ServerFns.processedUntilLimit quote invs) ∧
    (ServerFns.priceLoop quote now invs db updated errors calls).2.2.1 =
      calls ++ (ServerFns.processedUntilLimit quote invs).map
        (fun i => i.stock_symbol.getD "") := by
  intro invs
  induction invs with
  | nil =>
    intro db updated errors calls
    refine ⟨?_, ?_, ?_⟩ <;>
      simp [ServerFns.priceLoop, ServerFns.processedUntilLimit,
        ServerFns.quoteOkCount, ServerFns.quoteErrorsOf]
  | cons i rest ih =>
    intro db updated errors calls
    cases hq : quote (i.stock_symbol.getD "") with
    | ok price =>
      have hproc : ServerFns.processedUntilLimit quote (i :: rest) =
          i :: ServerFns.processedUntilLimit quote rest := by
        simp only [ServerFns.processedUntilLimit, hq]
      rw [priceLoop_cons_ok quote now i rest db updated errors calls price hq, hproc]
      rcases ih (ServerFns.setStockPrice db i.id price now) (updated + 1) errors
        (calls ++ [i.stock_symbol.getD ""]) with ⟨ih1, ih2, ih3⟩
      refine ⟨?_, ?_, ?_⟩
      · rw [ih1]
        unfold ServerFns.quoteOkCount
        rw [List.filter_cons]
        rw [hq]
        simp only [exceptOk, if_true, List.length_cons]
        omega
      · rw [ih2]
        unfold ServerFns.quoteErrorsOf
        rw [List.filterMap_cons]
        rw [hq]
      · rw [ih3, List.map_cons]
        rw [List.append_assoc]
        rfl
    | error msg =>
      have hproc : ServerFns.processedUntilLimit quote (i :: rest) =
          if ServerFns.isApiLimitMessage msg then [i]
          else i :: ServerFns.processedUntilLimit quote rest := by
        simp only [ServerFns.processedUntilLimit, hq]
      rw [priceLoop_cons_error quote now i rest db updated errors calls msg hq, hproc]
      by_cases hl : ServerFns.isApiLimitMessage msg = true
      · rw [if_pos hl, if_pos hl]
        refine ⟨?_, ?_, ?_⟩
        · unfold ServerFns.quoteOkCount
          rw [List.filter_cons]
          rw [hq]
          simp [exceptOk]
        · unfold ServerFns.quoteErrorsOf
          rw [List.filterMap_cons]
          rw [hq]
          rfl
        · rfl
      · rw [if_neg hl, if_neg hl]
        rcases ih db updated
          (errors ++ [ServerFns.formatQuoteError (i.stock_symbol.getD "") msg])
          (calls ++ [i.stock_symbol.getD ""]) with ⟨ih1, ih2, ih3⟩
        refine ⟨?_, ?_, ?_⟩
        · rw [ih1]
          unfold ServerFns.quoteOkCount
          rw [List.filter_cons]
          rw [hq]
          simp [exceptOk]
        · rw [ih2]
          unfold ServerFns.quoteErrorsOf
          rw [List.filterMap_cons]
          rw [hq]
          rw [List.append_assoc]
          rfl
        · rw [ih3, List.map_cons]
          rw [List.append_assoc]
          rfl

/-- An investment whose id never occurs in the processed list survives the
loop untouched. -/
theorem priceLoop_preserves (quote : String → Except String Int) (now : Nat) :
    ∀ (invs : List Investment) (db : DB) (updated : Nat)
      (errors calls : List String) (j : Investment), j ∈ db.investments →
    (∀ i0 ∈ invs, j.id ≠ i0.id) →
    j ∈ (ServerFns.priceLoop quote now invs db updated errors calls).2.2.2.investments := by
  intro invs
  induction invs with
  | nil =>
    intro db updated errors calls j hj _
    simpa [ServerFns.priceLoop] using hj
  | cons i rest ih =>
    intro db updated errors calls j hj hne
    cases hq : quote (i.stock_symbol.getD "") with
    | ok price =>
      rw [priceLoop_cons_ok quote now i rest db updated errors calls price hq]
      refine ih _ _ _ _ j ?_ ?_
      · unfold ServerFns.setStockPrice
        have hid : (j.id == i.id) = false := by
          simp [hne i (List.mem_cons_self _ _)]
        have hjj : (fun j0 : Investment =>
            if j0.id == i.id then
              { j0 with current_stock_price := some price, stock_price_updated_at := some now }
            else j0) j = j := by
          simp [hid]
        rw [show j = (fun j0 : Investment =>
            if j0.id == i.id then
              { j0 with current_stock_price := some price, stock_price_updated_at := some now }
            else j0) j from hjj.symm]
        exact List.mem_map_of_mem _ hj
      · intro i0 h0
        exact hne i0 (List.mem_cons_of_mem _ h0)
    | error msg =>
      rw [priceLoop_cons_error quote now i rest db updated errors calls msg hq]
      by_cases hl : ServerFns.isApiLimitMessage msg = true
      · rw [if_pos hl]
        exact hj
      · rw [if_neg hl]
        refine ih _ _ _ _ j hj ?_
        intro i0 h0
        exact hne i0 (List.mem_cons_of_mem _ h0)

/-- Claim C8: updateUserStockPrices never propagates a price-lookup
failure: a top-level failure degrades to an updated-0 result with that
message, and otherwise the run processes the stale list up to and
including the first rate-limit failure, recording one error entry per
failed symbol, issuing external requests only for that prefix, and
counting the successful updates. -/
theorem c8_price_failures_contained (quote : String → Except String Int)
    (db : DB) (u now : Nat) :
    (∀ msg, ServerFns.updateUserStockPrices quote db u now (some msg) =
      ({ updated := 0, errors := [msg] }, [], db)) ∧
    ((ServerFns.updateUserStockPrices quote db u now none).1.errors =
      ServerFns.quoteErrorsOf quote (ServerFns.processedUntilLimit quote
        (ServerFns.staleStockInvestments db u now))) ∧
    ((ServerFns.updateUserStockPrices quote db u now none).2.1 =
      (ServerFns.processedUntilLimit quote
        (ServerFns.staleStockInvestments db u now)).map
        (fun i => i.stock_symbol.getD "")) ∧
    ((ServerFns.updateUserStockPrices quote db u now none).1.updated =
      ServerFns.quoteOkCount quote (ServerFns.processedUntilLimit quote
        (ServerFns.staleStockInvestments db u now))) := by
  refine ⟨fun msg => rfl, ?_, ?_, ?_⟩ <;>
  · unfold ServerFns.updateUserStockPrices
    by_cases h0 : (ServerFns.staleStockInvestments db u now).length == 0
    · rw [if_pos h0]
      have hnil : ServerFns.staleStockInvestments db u now = [] :=
        List.length_eq_zero.mp (Nat.beq_eq_true_eq _ _ ▸ h0)
      rw [hnil]
      simp [ServerFns.processedUntilLimit, ServerFns.quoteOkCount, ServerFns.quoteErrorsOf]
    · rw [if_neg h0]
      rcases priceLoop_spec quote now (ServerFns.staleStockInvestments db u now) db 0 [] []
        with ⟨h1, h2, h3⟩
      simp [h1, h2, h3]

/-- Claim C10: the stale-stock SELECT of updateUserStockPrices picks
exactly the bound user's stock-type investments with a non-null symbol
whose stored price is missing or older than 24 hours; an investment
priced within the last 24 hours is not selected, triggers no external
quote request, and its row (current_stock_price included) is unchanged by
the run. -/
theorem c10_stale_price_filter (quote : String → Except String Int)
    (db : DB) (u now : Nat)
    (hids : (db.investments.map (fun i => i.id)).Nodup) :
    (∀ i ∈ ServerFns.staleStockInvestments db u now,
      portfolioOwnedBy db i.portfolio_id u = true ∧
      i.investment_type = "stock" ∧ i.stock_symbol.isSome = true ∧
      (i.stock_price_updated_at = none ∨
        ∃ t, i.stock_price_updated_at = some t ∧ t + 86400 < now)) ∧
    (∀ i ∈ db.investments, ∀ t, i.stock_price_updated_at = some t →
      ¬ (t + 86400 < now) →
      i ∉ ServerFns.staleStockInvestments db u now ∧
      i ∈ (ServerFns.updateUserStockPrices quote db u now none).2.2.investments) := by
  constructor
  · intro i hi
    have hp := (List.mem_filter.mp hi).2
    unfold ServerFns.isStaleStock at hp
    rcases (Bool.and_eq_true _ _).mp hp with ⟨hp1, hp4⟩
    rcases (Bool.and_eq_true _ _).mp hp1 with ⟨hp2, hp3⟩
    rcases (Bool.and_eq_true _ _).mp hp2 with ⟨hp5, hp6⟩
    refine ⟨hp5, beq_iff_eq.mp hp6, hp3, ?_⟩
    cases ht : i.stock_price_updated_at with
    | none => exact Or.inl rfl
    | some t =>
      rw [ht] at hp4
      exact Or.inr ⟨t, rfl, of_decide_eq_true hp4⟩
  · intro i hi t ht hfresh
    have hnot : ServerFns.isStaleStock db u now i = false := by
      unfold ServerFns.isStaleStock
      rw [ht]
      simp [hfresh]
    have hnotin : i ∉ ServerFns.staleStockInvestments db u now := by
      intro hin
      have := (List.mem_filter.mp hin).2
      rw [hnot] at this
      exact Bool.false_ne_true this
    refine ⟨hnotin, ?_⟩
    unfold ServerFns.updateUserStockPrices
    by_cases h0 : (ServerFns.staleStockInvestments db u now).length == 0
    · rw [if_pos h0]
      exact hi
    · rw [if_neg h0]
      refine priceLoop_preserves quote now _ db 0 [] [] i hi ?_
      intro i0 h0m hbad
      have hi0 : i0 ∈ db.investments := (List.mem_filter.mp h0m).1
      have : i = i0 := List.inj_on_of_nodup_map hids hi hi0 hbad
      rw [this] at hnotin
      exact hnotin h0m

/-- Witness for c10_stale_price_filter: in dbWithFreshStock the stock
investment priced an hour before now triggers no external request. -/
theorem c10_stale_price_filter_witness :
    Examples.freshStock ∉
      ServerFns.staleStockInvestments Examples.dbWithFreshStock 2 103600 :=
  ((c10_stale_price_filter (fun _ => .error "x") Examples.dbWithFreshStock 2 103600
      (by decide)).2 Examples.freshStock (by decide) 100000 rfl (by decide)).1

/-- Adding one table keeps existing catalog entries. -/
theorem mem_addTableIfAbsent (ts : List String) (t s : String) (h : s ∈ ts) :
    s ∈ DataInvestments.addTableIfAbsent ts t := by
  unfold DataInvestments.addTableIfAbsent
  by_cases hc : ts.contains t = true
  · rw [if_pos hc]
    exact h
  · rw [if_neg hc]
    exact List.mem_append_left _ h

/-- Adding one table makes it present. -/
theorem self_mem_addTableIfAbsent (ts : List String) (t : String) :
    t ∈ DataInvestments.addTableIfAbsent ts t := by
  unfold DataInvestments.addTableIfAbsent
  by_cases hc : ts.contains t = true
  · rw [if_pos hc]
    simpa using hc
  · rw [if_neg hc]
    exact List.mem_append_right _ (by simp)

/-- create-if-absent preserves every existing catalog entry. -/
theorem mem_foldl_addTableIfAbsent (names : List String) :
    ∀ (ts : List String) (s : String), s ∈ ts →
      s ∈ names.foldl DataInvestments.addTableIfAbsent ts := by
  induction names with
  | nil =>
    intro ts s h
    exact h
  | cons n ns ih =>
    intro ts s h
    exact ih _ s (mem_addTableIfAbsent ts n s h)

/-- create-if-absent ends with every requested table present. -/
theorem names_mem_foldl_addTableIfAbsent (names : List String) :
    ∀ (ts : List String) (s : String), s ∈ names →
      s ∈ names.foldl DataInvestments.addTableIfAbsent ts := by
  induction names with
  | nil =>
    intro ts s h
    exact absurd h (List.not_mem_nil s)
  | cons n ns ih =>
    intro ts s h
    rcases List.mem_cons.mp h with rfl | h2
    · exact mem_foldl_addTableIfAbsent ns _ s (self_mem_addTableIfAbsent ts s)
    · exact ih _ s h2

/-- The DISTINCT non-null legacy owners are exactly the users with a
legacy investments row. -/
theorem mem_distinctLegacyUserIds (u : Nat) :
    ∀ invs : List DataInvestments.MigInvestment,
    (u ∈ DataInvestments.distinctLegacyUserIds invs ↔
      ∃ i ∈ invs, i.user_id = some u) := by
  intro invs
  induction invs with
  | nil => simp [DataInvestments.distinctLegacyUserIds]
  | cons i rest ih =>
    cases hu : i.user_id with
    | none =>
      have heq : DataInvestments.distinctLegacyUserIds (i :: rest) =
          DataInvestments.distinctLegacyUserIds rest := by
        simp only [DataInvestments.distinctLegacyUserIds, hu]
      rw [heq]
      constructor
      · intro h
        rcases ih.mp h with ⟨j, hj, hju⟩
        exact ⟨j, List.mem_cons_of_mem _ hj, hju⟩
      · rintro ⟨j, hj, hju⟩
        rcases List.mem_cons.mp hj with rfl | hj2
        · rw [hu] at hju
          exact absurd hju (by simp)
        · exact ih.mpr ⟨j, hj2, hju⟩
    | some v =>
      by_cases hc : (DataInvestments.distinctLegacyUserIds rest).contains v = true
      · have heq : DataInvestments.distinctLegacyUserIds (i :: rest) =
            DataInvestments.distinctLegacyUserIds rest := by
          simp only [DataInvestments.distinctLegacyUserIds, hu, hc, if_true]
        rw [heq]
        constructor
        · intro h
          rcases ih.mp h with ⟨j, hj, hju⟩
          exact ⟨j, List.mem_cons_of_mem _ hj, hju⟩
        · rintro ⟨j, hj, hju⟩
          rcases List.mem_cons.mp hj with rfl | hj2
          · rw [hu] at hju
            injection hju with hv
            rw [← hv]
            simpa using hc
          · exact ih.mpr ⟨j, hj2, hju⟩
      · have heq : DataInvestments.distinctLegacyUserIds (i :: rest) =
            v :: DataInvestments.distinctLegacyUserIds rest := by
          simp only [DataInvestments.distinctLegacyUserIds, hu]
          rw [if_neg (fun hmem => hc (by simpa using hmem))]
        rw [heq]
        constructor
        · intro h
          rcases List.mem_cons.mp h with rfl | h2
          · exact ⟨i, List.mem_cons_self _ _, hu⟩
          · rcases ih.mp h2 with ⟨j, hj, hju⟩
            exact ⟨j, List.mem_cons_of_mem _ hj, hju⟩
        · rintro ⟨j, hj, hju⟩
          rcases List.mem_cons.mp hj with rfl | hj2
          · rw [hu] at hju
            injection hju with hv
            rw [← hv]
            exact List.mem_cons_self _ _
          · exact List.mem_cons_of_mem _ (ih.mpr ⟨j, hj2, hju⟩)

/-- The conflict-skipping backfill: the number of default rows for one
owner becomes one when the owner is in the list and had none, and is
unchanged otherwise. -/
theorem count_addDefaultPortfolios (u : Nat) :
    ∀ (us : List Nat) (ps : List Portfolio) (nid : Nat),
    ((DataInvestments.addDefaultPortfolios ps us nid).filter
      (fun p => p.user_id == u && p.name == "My Portfolio")).length =
    (if u ∈ us ∧ (ps.filter
        (fun p => p.user_id == u && p.name == "My Portfolio")).length = 0
     then 1
     else (ps.filter (fun p => p.user_id == u && p.name == "My Portfolio")).length) := by
  intro us
  induction us with
  | nil =>
    intro ps nid
    simp [DataInvestments.addDefaultPortfolios]
  | cons v vs ih =>
    intro ps nid
    by_cases hc : ps.any (fun p => p.user_id == v && p.name == "My Portfolio") = true
    · have heq : DataInvestments.addDefaultPortfolios ps (v :: vs) nid =
          DataInvestments.addDefaultPortfolios ps vs nid := by
        simp only [DataInvestments.addDefaultPortfolios, hc, if_true]
      rw [heq, ih]
      by_cases huv : u = v
      · subst huv
        have hpos : (ps.filter
            (fun p => p.user_id == u && p.name == "My Portfolio")).length ≠ 0 := by
          rcases List.any_eq_true.mp hc with ⟨p, hp, hpp⟩
          have hmem : p ∈ ps.filter (fun p => p.user_id == u && p.name == "My Portfolio") :=
            List.mem_filter.mpr ⟨hp, hpp⟩
          have := List.length_pos.mpr (List.ne_nil_of_mem hmem)
          omega
        simp [hpos]
      · simp [List.mem_cons, huv]
    · have heq : DataInvestments.addDefaultPortfolios ps (v :: vs) nid =
          DataInvestments.addDefaultPortfolios
            (ps ++ [DataInvestments.migPortfolioRow nid v]) vs (nid + 1) := by
        simp only [DataInvestments.addDefaultPortfolios]
        rw [if_neg (by simp [hc])]
      have hzero : (ps.filter
          (fun p => p.user_id == v && p.name == "My Portfolio")).length = 0 := by
        have : ps.filter (fun p => p.user_id == v && p.name == "My Portfolio") = [] := by
          rw [List.filter_eq_nil_iff]
          intro a ha hpa
          exact hc (List.any_eq_true.mpr ⟨a, ha, hpa⟩)
        rw [this]
        rfl
      rw [heq, ih]
      by_cases huv : u = v
      · subst huv
        have happ : ((ps ++ [DataInvestments.migPortfolioRow nid u]).filter
            (fun p => p.user_id == u && p.name == "My Portfolio")).length =
            (ps.filter (fun p => p.user_id == u && p.name == "My Portfolio")).length + 1 := by
          rw [List.filter_append]
          simp [DataInvestments.migPortfolioRow]
        rw [happ, hzero]
        simp [List.mem_cons]
      · have happ : ((ps ++ [DataInvestments.migPortfolioRow nid v]).filter
            (fun p => p.user_id == u && p.name == "My Portfolio")).length =
            (ps.filter (fun p => p.user_id == u && p.name == "My Portfolio")).length := by
          rw [List.filter_append]
          have hvu : ¬ v = u := fun h => huv h.symm
          simp [DataInvestments.migPortfolioRow, hvu]
        rw [happ]
        simp [List.mem_cons, huv]

/-- createMockData only inserts rows; the catalog is untouched. -/
theorem createMockData_tables (x : DataInvestments.SchemaState) :
    (DataInvestments.createMockData x).tables = x.tables := by
  unfold DataInvestments.createMockData DataInvestments.mockUsers
  rfl

/-- The catalog after createFreshSchema is the create-if-absent fold. -/
theorem createFreshSchema_tables (st : DataInvestments.SchemaState) :
    (DataInvestments.createFreshSchema st).tables =
      DataInvestments.allTableNames.foldl DataInvestments.addTableIfAbsent st.tables := by
  unfold DataInvestments.createFreshSchema
  rw [createMockData_tables]

/-- Claim C4: schema initialization in src/data/investments.ts decides a
legacy migration is needed exactly when the investments table exists and
the portfolios marker table does not; the migration then creates the
marker table, backfills exactly one default My Portfolio row per distinct
non-null legacy user_id, adds the nullable portfolio_id column, points
every legacy row with a NULL portfolio_id at its owner's backfilled
default portfolio, and drops the NOT NULL constraint on user_id only when
that column exists; otherwise initialization takes the fresh-install
create-if-absent path. -/
theorem c4_migration_paths (st : DataInvestments.SchemaState) :
    (DataInvestments.needsMigration st = true ↔
      ("investments" ∈ st.tables ∧ "portfolios" ∉ st.tables)) ∧
    (DataInvestments.needsMigration st = true →
      DataInvestments.initializeSchemaRun st =
        (DataInvestments.performPortfolioMigration st, true)) ∧
    (DataInvestments.needsMigration st = true →
      ("portfolios" ∈ (DataInvestments.performPortfolioMigration st).tables ∧
      (DataInvestments.performPortfolioMigration st).invHasPortfolioIdCol = true ∧
      (DataInvestments.performPortfolioMigration st).invUserIdNotNull =
        (if st.invHasUserIdCol then false else st.invUserIdNotNull) ∧
      (∀ u, (∃ i ∈ st.investmentsRows, i.user_id = some u) →
        ((DataInvestments.performPortfolioMigration st).portfoliosRows.filter
          (fun p => p.user_id == u && p.name == "My Portfolio")).length = 1) ∧
      (∀ i ∈ st.investmentsRows, ∀ u, i.user_id = some u → i.portfolio_id = none →
        ∃ i2 ∈ (DataInvestments.performPortfolioMigration st).investmentsRows,
          i2.id = i.id ∧
          ∃ p ∈ (DataInvestments.performPortfolioMigration st).portfoliosRows,
            p.user_id = u ∧ p.name = "My Portfolio" ∧
            i2.portfolio_id = some p.id))) ∧
    (DataInvestments.needsMigration st = false →
      (DataInvestments.initializeSchemaRun st =
        (DataInvestments.createFreshSchema st, false) ∧
      (∀ t ∈ st.tables, t ∈ (DataInvestments.createFreshSchema st).tables) ∧
      (∀ t ∈ DataInvestments.allTableNames,
        t ∈ (DataInvestments.createFreshSchema st).tables))) := by
  refine ⟨?_, ?_, ?_, ?_⟩
  · unfold DataInvestments.needsMigration
    rw [Bool.and_eq_true]
    constructor
    · rintro ⟨h1, h2⟩
      refine ⟨by simpa using h1, ?_⟩
      intro hmem
      rw [Bool.not_eq_true'] at h2
      have : st.tables.contains "portfolios" = true := by simpa using hmem
      rw [this] at h2
      exact absurd h2 (by decide)
    · rintro ⟨h1, h2⟩
      refine ⟨by simpa using h1, ?_⟩
      rw [Bool.not_eq_true']
      by_cases hcp : st.tables.contains "portfolios" = true
      · exact absurd (by simpa using hcp) h2
      · simpa using hcp
  · intro hmig
    unfold DataInvestments.initializeSchemaRun
    rw [if_pos hmig]
  · intro hmig
    have hnop : st.tables.contains "portfolios" = false := by
      unfold DataInvestments.needsMigration at hmig
      rcases Bool.and_eq_true _ _ |>.mp hmig with ⟨_, h2⟩
      rw [Bool.not_eq_true'] at h2
      exact h2
    have hnopf : ¬ st.tables.contains "portfolios" = true := by
      rw [hnop]
      exact Bool.false_ne_true
    have hr : DataInvestments.performPortfolioMigration st =
        (let st1 : DataInvestments.SchemaState :=
          { st with tables := st.tables ++ ["portfolios"], portfoliosRows := [] }
        let ps := DataInvestments.addDefaultPortfolios st1.portfoliosRows
          (DataInvestments.distinctLegacyUserIds st1.investmentsRows)
          (DataInvestments.maxPortfolioId st1.portfoliosRows + 1)
        let st2 := { st1 with portfoliosRows := ps }
        let st3 := { st2 with invHasPortfolioIdCol := true }
        let st4 := { st3 with
          investmentsRows := st3.investmentsRows.map
            (DataInvestments.assignDefaultPortfolio ps) }
        if st4.invHasUserIdCol then { st4 with invUserIdNotNull := false } else st4) := by
      unfold DataInvestments.performPortfolioMigration
      rw [if_neg hnopf]
    have hps : (DataInvestments.performPortfolioMigration st).portfoliosRows =
        DataInvestments.addDefaultPortfolios []
          (DataInvestments.distinctLegacyUserIds st.investmentsRows) 1 := by
      rw [hr]
      by_cases hcol : st.invHasUserIdCol = true
      · simp only [hcol, if_true]
        rfl
      · rw [Bool.not_eq_true] at hcol
        simp only [hcol, Bool.false_eq_true, if_false]
        rfl
    have htab : (DataInvestments.performPortfolioMigration st).tables =
        st.tables ++ ["portfolios"] := by
      rw [hr]
      by_cases hcol : st.invHasUserIdCol = true
      · simp only [hcol, if_true]
      · rw [Bool.not_eq_true] at hcol
        simp only [hcol, Bool.false_eq_true, if_false]
    have hinv : (DataInvestments.performPortfolioMigration st).investmentsRows =
        st.investmentsRows.map (DataInvestments.assignDefaultPortfolio
          (DataInvestments.addDefaultPortfolios []
            (DataInvestments.distinctLegacyUserIds st.investmentsRows) 1)) := by
      rw [hr]
      by_cases hcol : st.invHasUserIdCol = true
      · simp only [hcol, if_true]
        rfl
      · rw [Bool.not_eq_true] at hcol
        simp only [hcol, Bool.false_eq_true, if_false]
        rfl
    refine ⟨?_, ?_, ?_, ?_, ?_⟩
    · rw [htab]
      exact List.mem_append_right _ (by simp)
    · rw [hr]
      by_cases hcol : st.invHasUserIdCol = true
      · simp only [hcol, if_true]
      · rw [Bool.not_eq_true] at hcol
        simp only [hcol, Bool.false_eq_true, if_false]
    · rw [hr]
      by_cases hcol : st.invHasUserIdCol = true
      · simp only [hcol, if_true]
      · rw [Bool.not_eq_true] at hcol
        simp only [hcol, Bool.false_eq_true, if_false]
    · intro u hex
      rw [hps, count_addDefaultPortfolios]
      have hmem : u ∈ DataInvestments.distinctLegacyUserIds st.investmentsRows :=
        (mem_distinctLegacyUserIds u st.investmentsRows).mpr hex
      simp [hmem]
    · intro i hi u hu hpid
      have hmemu : u ∈ DataInvestments.distinctLegacyUserIds st.investmentsRows :=
        (mem_distinctLegacyUserIds u st.investmentsRows).mpr ⟨i, hi, hu⟩
      have hcount := count_addDefaultPortfolios u
        (DataInvestments.distinctLegacyUserIds st.investmentsRows) [] 1
      rw [if_pos ⟨hmemu, by rfl⟩] at hcount
      have hfsome : ((DataInvestments.addDefaultPortfolios []
          (DataInvestments.distinctLegacyUserIds st.investmentsRows) 1).find?
          (fun p => p.user_id == u && p.name == "My Portfolio")).isSome = true := by
        rw [List.find?_isSome]
        have hne : (DataInvestments.addDefaultPortfolios []
            (DataInvestments.distinctLegacyUserIds st.investmentsRows) 1).filter
            (fun p => p.user_id == u && p.name == "My Portfolio") ≠ [] := by
          intro hnil
          rw [hnil] at hcount
          exact absurd hcount (by simp)
        rcases List.exists_mem_of_ne_nil _ hne with ⟨p, hp⟩
        have := List.mem_filter.mp hp
        exact ⟨p, this.1, this.2⟩
      rcases Option.isSome_iff_exists.mp hfsome with ⟨p, hfind⟩
      have hppred := List.find?_some hfind
      rcases (Bool.and_eq_true _ _).mp hppred with ⟨hpu, hpn⟩
      have hpmem := List.mem_of_find?_eq_some hfind
      refine ⟨DataInvestments.assignDefaultPortfolio
        (DataInvestments.addDefaultPortfolios []
          (DataInvestments.distinctLegacyUserIds st.investmentsRows) 1) i, ?_, ?_, ?_⟩
      · rw [hinv]
        exact List.mem_map_of_mem _ hi
      · simp only [DataInvestments.assignDefaultPortfolio, hpid, Option.isNone_none,
          if_true, hu, hfind]
      · refine ⟨p, by rw [hps]; exact hpmem, beq_iff_eq.mp hpu, beq_iff_eq.mp hpn, ?_⟩
        simp only [DataInvestments.assignDefaultPortfolio, hpid, Option.isNone_none,
          if_true, hu, hfind]
  · intro hnomig
    refine ⟨?_, ?_, ?_⟩
    · unfold DataInvestments.initializeSchemaRun
      rw [if_neg (by rw [hnomig]; exact (by decide))]
    · intro t ht
      rw [createFreshSchema_tables]
      exact mem_foldl_addTableIfAbsent DataInvestments.allTableNames st.tables t ht
    · intro t ht
      rw [createFreshSchema_tables]
      exact names_mem_foldl_addTableIfAbsent DataInvestments.allTableNames st.tables t ht

/-- Witness for c4_migration_paths: the legacy state with investments of
users 1 and 2 and no portfolios table migrates, ending with exactly one
default portfolio for user 1. -/
theorem c4_migration_paths_witness :
    DataInvestments.needsMigration Examples.legacyState = true ∧
    ((DataInvestments.performPortfolioMigration Examples.legacyState).portfoliosRows.filter
      (fun p => p.user_id == 1 && p.name == "My Portfolio")).length = 1 :=
  ⟨by decide,
   ((c4_migration_paths Examples.legacyState).2.2.1 (by decide)).2.2.2.1 1
     ⟨{ id := 1, user_id := some 1, portfolio_id := none }, by decide, rfl⟩⟩

end PortfolioApp
